import Mathlib

/-!
# Pose-to-skeleton retargeting

A shallow embedding of the two retargeting pipelines of the repository:

* `src/src/components/HandTrackingScene.jsx`, the angle-decomposition pipeline
  (namespace `Revive.HandTrackingScene`);
* `src/src/components/debug.jsx`, the look-at pipeline (namespace `Revive.Debug`).

JavaScript numbers are read as elements of a linear ordered field `K` (exact
arithmetic; `K = ℚ` evaluates, `K = ℝ` is the intended reading), so rounding,
`NaN` and infinities are outside the model.

The three.js calls whose results are not rational functions of their arguments
(`Vector3.angleTo`, `Vector3.normalize`, `Quaternion.setFromEuler`,
`Quaternion.slerp`, `Object3D.lookAt`, `Object3D.getWorldQuaternion`) are a
parameter `T : Three K` of every handler.  The rational ones (vector arithmetic,
quaternion product and inverse, `MathUtils.lerp`, scene-graph traversal and
lookup by name) are written out.

A mutable `obj.quaternion` is an entry of a store `Nat → Quaternion K` indexed by
the object's `uuid`.  React status text is the `status` field of the scene.
A handler returns an `Outcome`: the scene it leaves behind and whether a
`TypeError` escaped it (reading `.x` of a landmark that is not in the array).

Teardown acts on a `Pipeline`: the scene together with the pending animation
frame, the video element and its stream, and the log of `stop()` calls made on
capture tracks.
-/

namespace Revive

/-! ## three.js value types -/

/-- The type `THREE.Vector3`. -/
structure Vector3 (K : Type) where
  x : K
  y : K
  z : K

/-- The type `THREE.Quaternion`. -/
structure Quaternion (K : Type) where
  x : K
  y : K
  z : K
  w : K

/-- The type `THREE.Euler` with the rotation order fixed to `"YXZ"`, the only order the
repository uses: `x` is the pitch, `y` the yaw, `z` the roll. -/
structure Euler (K : Type) where
  x : K
  y : K
  z : K

/-- One pose landmark of the estimator: normalised image coordinates and depth. -/
structure Landmark (K : Type) where
  x : K
  y : K
  z : K

/-- The argument of a results callback: `results.poseLandmarks` is absent
(`none`) or an array of landmarks. -/
structure Results (K : Type) where
  poseLandmarks : Option (List (Landmark K))

/-- A node of the loaded scene graph (`THREE.Object3D`): its `uuid`, `name`,
`isBone` flag, the `uuid` of its `parent` (absent at a root) and its children. -/
inductive Object3D where
  | mk (uuid : Nat) (name : String) (isBone : Bool) (parent : Option Nat)
      (children : List Object3D)

set_option linter.unusedSectionVars false

variable {K : Type} [LinearOrderedField K]

namespace Vector3

/-- Models `new THREE.Vector3().subVectors(a, b)`. -/
def subVectors (a b : Vector3 K) : Vector3 K :=
  ⟨a.x - b.x, a.y - b.y, a.z - b.z⟩

/-- Models `new THREE.Vector3().addVectors(a, b)`. -/
def addVectors (a b : Vector3 K) : Vector3 K :=
  ⟨a.x + b.x, a.y + b.y, a.z + b.z⟩

/-- Models `v.add(w)`. -/
def add (v w : Vector3 K) : Vector3 K :=
  addVectors v w

/-- Models `v.multiplyScalar(s)`. -/
def multiplyScalar (v : Vector3 K) (s : K) : Vector3 K :=
  ⟨v.x * s, v.y * s, v.z * s⟩

/-- Models `a.dot(b)`. -/
def dot (a b : Vector3 K) : K :=
  a.x * b.x + a.y * b.y + a.z * b.z

/-- Models `v.lengthSq()`. -/
def lengthSq (v : Vector3 K) : K :=
  v.x * v.x + v.y * v.y + v.z * v.z

end Vector3

namespace Quaternion

/-- Models `new THREE.Quaternion()`: the identity rotation. -/
def identity : Quaternion K :=
  ⟨0, 0, 0, 1⟩

/-- Models `a.dot(b)`. -/
def dot (a b : Quaternion K) : K :=
  a.x * b.x + a.y * b.y + a.z * b.z + a.w * b.w

/-- Models `q.lengthSq()`. -/
def lengthSq (q : Quaternion K) : K :=
  q.x * q.x + q.y * q.y + q.z * q.z + q.w * q.w

/-- The quaternion `-q`, which is the same rotation as `q`. -/
def neg (q : Quaternion K) : Quaternion K :=
  ⟨-q.x, -q.y, -q.z, -q.w⟩

/-- Models `q.invert()`: three.js takes the quaternion to be of unit length and
conjugates it. -/
def invert (q : Quaternion K) : Quaternion K :=
  ⟨-q.x, -q.y, -q.z, q.w⟩

/-- Models `a.multiply(b)`: the Hamilton product `a * b`. -/
def multiply (a b : Quaternion K) : Quaternion K :=
  ⟨a.x * b.w + a.w * b.x + a.y * b.z - a.z * b.y,
   a.y * b.w + a.w * b.y + a.z * b.x - a.x * b.z,
   a.z * b.w + a.w * b.z + a.x * b.y - a.y * b.x,
   a.w * b.w - a.x * b.x - a.y * b.y - a.z * b.z⟩

end Quaternion

namespace Object3D

/-- Models `obj.uuid`. -/
def uuid : Object3D → Nat
  | mk u _ _ _ _ => u

/-- Models `obj.name`. -/
def name : Object3D → String
  | mk _ n _ _ _ => n

/-- Models `obj.isBone`. -/
def isBone : Object3D → Bool
  | mk _ _ b _ _ => b

/-- Models `obj.parent`, as the parent's `uuid`. -/
def parent : Object3D → Option Nat
  | mk _ _ _ p _ => p

/-- Models `obj.children`. -/
def children : Object3D → List Object3D
  | mk _ _ _ _ cs => cs

mutual
/-- The nodes `obj.traverse(callback)` hands to the callback, in call order:
the object itself, then each child's traversal. -/
def traverse : Object3D → List Object3D
  | mk u n b p cs => mk u n b p cs :: traverseList cs
/-- The traversal of a list of children, one after the other. -/
def traverseList : List Object3D → List Object3D
  | [] => []
  | c :: cs => traverse c ++ traverseList cs
end

mutual
/-- Models `obj.getObjectByName(name)`: the object itself when its name matches, else
the first match among the children's subtrees; `none` is `undefined`. -/
def getObjectByName (nm : String) : Object3D → Option Object3D
  | mk u n b p cs => if n = nm then some (mk u n b p cs) else getObjectByNameList nm cs
/-- The loop of `getObjectByName` over the children. -/
def getObjectByNameList (nm : String) : List Object3D → Option Object3D
  | [] => none
  | c :: cs =>
    match getObjectByName nm c with
    | some o => some o
    | none => getObjectByNameList nm cs
end

end Object3D

/-- The three.js operations the handlers call whose results are not rational
functions of their arguments. -/
structure Three (K : Type) where
  /-- Models `u.angleTo(v)`. -/
  angleTo : Vector3 K → Vector3 K → K
  /-- Models `v.normalize()`. -/
  normalize : Vector3 K → Vector3 K
  /-- Models `new THREE.Quaternion().setFromEuler(e)`, order `"YXZ"`. -/
  setFromEuler : Euler K → Quaternion K
  /-- Models `q.slerp(target, t)`. -/
  slerp : Quaternion K → Quaternion K → K → Quaternion K
  /-- The quaternion of a fresh `THREE.Object3D` placed at the first argument
  after `lookAt` of the second. -/
  lookAt : Vector3 K → Vector3 K → Quaternion K
  /-- Models `node.getWorldQuaternion(new THREE.Quaternion())` for the node with the
  given `uuid`, under the current local rotations. -/
  getWorldQuaternion : (Nat → Quaternion K) → Nat → Quaternion K

/-- Models `THREE.MathUtils.lerp(x, y, t)`. -/
def lerp (x y t : K) : K :=
  (1 - t) * x + t * y

/-- The rotation store after `obj.quaternion` is overwritten with `q`. -/
def setQuaternion (rot : Nat → Quaternion K) (obj : Object3D) (q : Quaternion K) :
    Nat → Quaternion K :=
  Function.update rot obj.uuid q

/-- What a results callback leaves behind: the scene, and whether a `TypeError`
escaped the callback. -/
structure Outcome (S : Type) where
  scene : S
  threw : Bool

/-! ## `HandTrackingScene.jsx`: the angle-decomposition pipeline -/

namespace HandTrackingScene

/-- The keys of the object `mapYBotBones` returns. -/
inductive Role where
  | leftShoulder
  | leftUpperArm
  | leftForearm
  | leftHand
  | rightShoulder
  | rightUpperArm
  | rightForearm
  | rightHand
  deriving DecidableEq, Repr

/-- The object `mapYBotBones` returns: a bone or `null` under each key. -/
abbrev BoneMap := Role → Option Object3D

/-- One entry of `smoothingRef.current`: `{ x, y }`. -/
structure Smoothing (K : Type) where
  x : K
  y : K

/-- The value of `smoothingRef.current`: `{ left, right }`. -/
structure SmoothingRef (K : Type) where
  left : Smoothing K
  right : Smoothing K

/-- The initial value of `smoothingRef` (lines 23-26). -/
def SmoothingRef.initial : SmoothingRef K :=
  { left := { x := 0, y := 0 }, right := { x := 0, y := 0 } }

/-- The state the pose handler reads and writes: `boneMapRef.current` (`none`
is the initial `{}`, an object without keys), every `obj.quaternion`,
`smoothingRef.current` and the status text. -/
structure Scene (K : Type) where
  boneMap : Option BoneMap
  quaternion : Nat → Quaternion K
  smoothing : SmoothingRef K
  status : String

/-- Line 36: `clamp = (v, a, b) => Math.max(a, Math.min(b, v))`. -/
def clamp (v a b : K) : K :=
  max a (min b v)

/-- Line 114: `find = (name) => root.getObjectByName(name) || null`. -/
def find (root : Object3D) (name : String) : Option Object3D :=
  root.getObjectByName name

/-- Lines 113-125. -/
def mapYBotBones (root : Object3D) : BoneMap
  | .leftShoulder => find root "DEF-shoulderL"
  | .leftUpperArm => find root "DEF-upper_armL"
  | .leftForearm => find root "DEF-forearmL"
  | .leftHand => find root "DEF-handL"
  | .rightShoulder => find root "DEF-shoulderR"
  | .rightUpperArm => find root "DEF-upper_armR"
  | .rightForearm => find root "DEF-forearmR"
  | .rightHand => find root "DEF-handR"

/-- Lines 128-133: `slerpTo(obj, targetQuat, t)`; a falsy `obj` returns at once. -/
def slerpTo (T : Three K) (rot : Nat → Quaternion K) (obj : Option Object3D)
    (targetQuat : Quaternion K) (t : K) : Nat → Quaternion K :=
  match obj with
  | none => rot
  | some o =>
    let q := T.slerp (rot o.uuid) targetQuat t
    setQuaternion rot o q

/-- Lines 136-140: `eulerToQuaternion(pitch, yaw, roll = 0)`. -/
def eulerToQuaternion (T : Three K) (pitch yaw roll : K) : Quaternion K :=
  T.setFromEuler ⟨pitch, yaw, roll⟩

/-- Lines 171-179. -/
def mpToVec (land : Landmark K) : Vector3 K :=
  let SCALE : K := 1.5
  let x := (land.x - 0.5) * SCALE
  let y := (0.5 - land.y) * SCALE
  let z := -land.z * SCALE
  ⟨x, y, z⟩

/-- Line 195. -/
def L_SHOULDER : Nat := 11
/-- Line 196. -/
def R_SHOULDER : Nat := 12
/-- Line 197. -/
def L_ELBOW : Nat := 13
/-- Line 198. -/
def R_ELBOW : Nat := 14
/-- Line 199. -/
def L_WRIST : Nat := 15
/-- Line 200. -/
def R_WRIST : Nat := 16
/-- Line 220. -/
def PITCH_SCALE : K := 1.6
/-- Line 221. -/
def YAW_SCALE : K := 1.6

/-- The four limb vectors of lines 212-216. -/
structure LimbVecs (K : Type) where
  lUpperVec : Vector3 K
  lForeVec : Vector3 K
  rUpperVec : Vector3 K
  rForeVec : Vector3 K

/-- Lines 202-216: the six landmarks through `mpToVec`, then the limb vectors.
`none` is the `TypeError` of `mpToVec(undefined)` when the array is too short. -/
def limbVecs (lm : List (Landmark K)) : Option (LimbVecs K) := do
  let lShoulder ← (lm[L_SHOULDER]?).map mpToVec
  let rShoulder ← (lm[R_SHOULDER]?).map mpToVec
  let lElbow ← (lm[L_ELBOW]?).map mpToVec
  let rElbow ← (lm[R_ELBOW]?).map mpToVec
  let lWrist ← (lm[L_WRIST]?).map mpToVec
  let rWrist ← (lm[R_WRIST]?).map mpToVec
  pure
    { lUpperVec := Vector3.subVectors lElbow lShoulder
      lForeVec := Vector3.subVectors lWrist lElbow
      rUpperVec := Vector3.subVectors rElbow rShoulder
      rForeVec := Vector3.subVectors rWrist rElbow }

/-- Lines 224 and 232: `clamp(-upperVec.y * PITCH_SCALE, -1.3, 1.3)`. -/
def pitch (upperVec : Vector3 K) : K :=
  clamp (-upperVec.y * PITCH_SCALE) (-1.3) 1.3

/-- Lines 225 and 233: `clamp(upperVec.x * YAW_SCALE, -1.3, 1.3)`. -/
def yaw (upperVec : Vector3 K) : K :=
  clamp (upperVec.x * YAW_SCALE) (-1.3) 1.3

/-- Lines 229 and 234: `clamp(upperVec.angleTo(foreVec) - 0.2, 0, 2.0)`. -/
def elbowAngle (T : Three K) (upperVec foreVec : Vector3 K) : K :=
  clamp (T.angleTo upperVec foreVec - 0.2) 0 2.0

/-- Lines 237-242: the four scalars blended into `smoothingRef.current`. -/
def smooth (sm : SmoothingRef K) (v : LimbVecs K) : SmoothingRef K :=
  let lPitch := pitch v.lUpperVec
  let lYaw := yaw v.lUpperVec
  let rPitch := pitch v.rUpperVec
  let rYaw := yaw v.rUpperVec
  { left := { x := lerp sm.left.x lYaw 0.18, y := lerp sm.left.y lPitch 0.18 }
    right := { x := lerp sm.right.x rYaw 0.18, y := lerp sm.right.y rPitch 0.18 } }

/-- The Euler angles line 249 hands to `eulerToQuaternion` for `leftTargetQ`. -/
def leftTarget (sm : SmoothingRef K) : Euler K :=
  ⟨sm.left.y, sm.left.x, 0⟩

/-- The Euler angles line 250 hands to `eulerToQuaternion` for `rightTargetQ`. -/
def rightTarget (sm : SmoothingRef K) : Euler K :=
  ⟨sm.right.y, -sm.right.x, 0⟩

/-- Lines 244-276: the six guarded bone updates, in source order, on the
smoothed scalars `sm` and the limb vectors `v` of this frame. -/
def applyBones (T : Three K) (bm : BoneMap) (rot : Nat → Quaternion K)
    (sm : SmoothingRef K) (v : LimbVecs K) : Nat → Quaternion K :=
  let sl := sm.left
  let sr := sm.right
  let lElbowAngle := elbowAngle T v.lUpperVec v.lForeVec
  let rElbowAngle := elbowAngle T v.rUpperVec v.rForeVec
  let leftTargetQ := eulerToQuaternion T sl.y sl.x 0
  let rightTargetQ := eulerToQuaternion T sr.y (-sr.x) 0
  let rot := if (bm .leftUpperArm).isSome then
    slerpTo T rot (bm .leftUpperArm) leftTargetQ 0.25 else rot
  let rot := if (bm .rightUpperArm).isSome then
    slerpTo T rot (bm .rightUpperArm) rightTargetQ 0.25 else rot
  let rot := if (bm .leftForearm).isSome then
    slerpTo T rot (bm .leftForearm) (eulerToQuaternion T (lElbowAngle * 0.8) 0 0) 0.2 else rot
  let rot := if (bm .rightForearm).isSome then
    slerpTo T rot (bm .rightForearm) (eulerToQuaternion T (rElbowAngle * 0.8) 0 0) 0.2 else rot
  let rot := if (bm .leftHand).isSome then
    slerpTo T rot (bm .leftHand) (eulerToQuaternion T (sl.y * 0.4) (sl.x * 0.4) 0) 0.18 else rot
  let rot := if (bm .rightHand).isSome then
    slerpTo T rot (bm .rightHand) (eulerToQuaternion T (sr.y * 0.4) (-sr.x * 0.4) 0) 0.18 else rot
  rot

/-- Lines 182-277: the pose results handler. -/
def onPoseResults (T : Three K) (s : Scene K) (results : Results K) : Outcome (Scene K) :=
  match s.boneMap with
  | none => ⟨{ s with status := "Model not ready" }, false⟩
  | some bm =>
    match results.poseLandmarks with
    | none => ⟨{ s with status := "No pose" }, false⟩
    | some lm =>
      let s := { s with status := "Pose detected" }
      match limbVecs lm with
      | none => ⟨s, true⟩
      | some v =>
        let sm := smooth s.smoothing v
        ⟨{ s with smoothing := sm, quaternion := applyBones T bm s.quaternion sm v }, false⟩

/-- The scene after the estimator has delivered the given results one after the
other to `onPoseResults` (line 155: `pose.onResults(onPoseResults)`). -/
def runFrames (T : Three K) (s : Scene K) : List (Results K) → Scene K
  | [] => s
  | r :: rs => runFrames T (onPoseResults T s r).scene rs

end HandTrackingScene

/-! ## `debug.jsx`: the look-at pipeline -/

namespace Debug

/-- The keys of the `bones` table (lines 75-90). -/
inductive Role where
  | leftShoulder
  | leftUpperArm
  | leftForearm
  | leftHand
  | rightShoulder
  | rightUpperArm
  | rightForearm
  | rightHand
  | spine
  | chest
  | neck
  | head
  deriving DecidableEq, Repr

/-- The `bones` object: a bone or `null` under each key. -/
abbrev Bones := Role → Option Object3D

/-- The state the holistic handler reads and writes: `bonesRef.current` (the
initial `{}` has no entry under any key), every `obj.quaternion` and the status
text. -/
structure Scene (K : Type) where
  bones : Bones
  quaternion : Nat → Quaternion K
  status : String

/-- Lines 67-73: `findBone(name)`; the callback overwrites `found` at every
matching node of the traversal. -/
def findBone (model : Object3D) (name : String) : Option Object3D :=
  model.traverse.foldl (fun found c => if c.isBone && c.name == name then some c else found) none

/-- The first name tried for each key of `bones`. -/
def Role.primary : Role → String
  | .leftShoulder => "DEF-shoulderL"
  | .leftUpperArm => "DEF-upper_armL"
  | .leftForearm => "DEF-forearmL"
  | .leftHand => "DEF-handL"
  | .rightShoulder => "DEF-shoulderR"
  | .rightUpperArm => "DEF-upper_armR"
  | .rightForearm => "DEF-forearmR"
  | .rightHand => "DEF-handR"
  | .spine => "DEF-spine"
  | .chest => "DEF-chest"
  | .neck => "DEF-neck"
  | .head => "DEF-head"

/-- The second name tried for each key of `bones`. -/
def Role.fallback : Role → String
  | .leftShoulder => "shoulderL_1"
  | .leftUpperArm => "upper_armL"
  | .leftForearm => "forearmL"
  | .leftHand => "handL"
  | .rightShoulder => "shoulderR_1"
  | .rightUpperArm => "upper_armR"
  | .rightForearm => "forearmR"
  | .rightHand => "handR"
  | .spine => "spine"
  | .chest => "chest"
  | .neck => "neck"
  | .head => "head"

/-- Lines 75-90: each entry is `findBone(primary) || findBone(fallback)`. -/
def bones (model : Object3D) : Bones :=
  fun r => (findBone model r.primary).orElse (fun _ => findBone model r.fallback)

/-- Lines 107-112: the landmark normaliser. -/
def normalize (l : Landmark K) : Vector3 K :=
  ⟨(l.x - 0.5) * 2 * -1, (0.5 - l.y) * 2, -l.z * 2⟩

/-- Lines 117-138: `applyBoneLookAt(bone, start, end, damp)`; every call in the
file passes `damp`, so its default `0.25` is never taken. -/
def applyBoneLookAt (T : Three K) (rot : Nat → Quaternion K) (bone : Option Object3D)
    (start end' : Vector3 K) (damp : K) : Nat → Quaternion K :=
  match bone with
  | none => rot
  | some b =>
    match b.parent with
    | none => rot
    | some p =>
      let dir := T.normalize (Vector3.subVectors end' start)
      let dir : Vector3 K := ⟨dir.x * -1, dir.y * -1, dir.z⟩
      let worldQ := T.lookAt start (start.add dir)
      let parentQ := (T.getWorldQuaternion rot p).invert
      let localQ := worldQ.multiply parentQ
      setQuaternion rot b (T.slerp (rot b.uuid) localQ damp)

/-- Lines 143-160: `updateArm`. -/
def updateArm (T : Three K) (rot : Nat → Quaternion K)
    (shoulderPos elbowPos wristPos : Vector3 K)
    (shoulderBone upperArmBone forearmBone handBone : Option Object3D) :
    Nat → Quaternion K :=
  if shoulderBone.isNone || upperArmBone.isNone || forearmBone.isNone then rot
  else
    let rot := applyBoneLookAt T rot upperArmBone shoulderPos elbowPos 0.22
    let rot := applyBoneLookAt T rot forearmBone elbowPos wristPos 0.25
    match handBone, forearmBone with
    | some h, some f => setQuaternion rot h (T.slerp (rot h.uuid) (rot f.uuid) 0.3)
    | _, _ => rot

/-- The object `L` of lines 189-201. -/
structure Pose (K : Type) where
  nose : Vector3 K
  leftShoulder : Vector3 K
  rightShoulder : Vector3 K
  leftElbow : Vector3 K
  rightElbow : Vector3 K
  leftWrist : Vector3 K
  rightWrist : Vector3 K
  leftHip : Vector3 K
  rightHip : Vector3 K
  leftEye : Vector3 K
  rightEye : Vector3 K

/-- Lines 189-201, in evaluation order; `none` is the `TypeError` of
`normalize(undefined)`. -/
def pose (lm : List (Landmark K)) : Option (Pose K) := do
  let nose ← (lm[0]?).map normalize
  let leftShoulder ← (lm[11]?).map normalize
  let rightShoulder ← (lm[12]?).map normalize
  let leftElbow ← (lm[13]?).map normalize
  let rightElbow ← (lm[14]?).map normalize
  let leftWrist ← (lm[15]?).map normalize
  let rightWrist ← (lm[16]?).map normalize
  let leftHip ← (lm[23]?).map normalize
  let rightHip ← (lm[24]?).map normalize
  let leftEye ← (lm[2]?).map normalize
  let rightEye ← (lm[5]?).map normalize
  pure
    { nose := nose, leftShoulder := leftShoulder, rightShoulder := rightShoulder
      leftElbow := leftElbow, rightElbow := rightElbow
      leftWrist := leftWrist, rightWrist := rightWrist
      leftHip := leftHip, rightHip := rightHip
      leftEye := leftEye, rightEye := rightEye }

/-- Lines 206-244: arms, head and neck, spine; `L.nose && L.leftEye &&
L.rightEye` are objects and so truthy. -/
def retarget (T : Three K) (b : Bones) (rot : Nat → Quaternion K) (L : Pose K) :
    Nat → Quaternion K :=
  let rot := updateArm T rot L.leftShoulder L.leftElbow L.leftWrist
    (b .leftShoulder) (b .leftUpperArm) (b .leftForearm) (b .leftHand)
  let rot := updateArm T rot L.rightShoulder L.rightElbow L.rightWrist
    (b .rightShoulder) (b .rightUpperArm) (b .rightForearm) (b .rightHand)
  let rot := if (b .head).isSome then
    let eyeCenter := (Vector3.addVectors L.leftEye L.rightEye).multiplyScalar 0.5
    let rot := applyBoneLookAt T rot (b .head) eyeCenter L.nose 0.15
    if (b .neck).isSome then applyBoneLookAt T rot (b .neck) eyeCenter L.nose 0.1 else rot
    else rot
  let rot := if (b .spine).isSome then
    let hips := (Vector3.addVectors L.leftHip L.rightHip).multiplyScalar 0.5
    let shoulders := (Vector3.addVectors L.leftShoulder L.rightShoulder).multiplyScalar 0.5
    applyBoneLookAt T rot (b .spine) hips shoulders 0.15
    else rot
  rot

/-- Lines 182-247: the holistic results handler; `bonesRef.current` is always
an object, so `if (!b) return` never returns. -/
def onResults (T : Three K) (s : Scene K) (results : Results K) : Outcome (Scene K) :=
  match results.poseLandmarks with
  | none => ⟨s, false⟩
  | some lm =>
    match pose lm with
    | none => ⟨s, true⟩
    | some L =>
      ⟨{ s with quaternion := retarget T s.bones s.quaternion L,
                status := "Tracking active ✓" }, false⟩

/-- The scene after the estimator has delivered the given results one after the
other to the handler (line 182: `holistic.onResults(...)`). -/
def runFrames (T : Three K) (s : Scene K) : List (Results K) → Scene K
  | [] => s
  | r :: rs => runFrames T (onResults T s r).scene rs

end Debug

/-! ## Predicates used to state the properties -/

/-- The scene graph under `model` contains a bone named `name`: some node its
traversal visits has `isBone` set and that name. -/
def Debug.HasBone (model : Object3D) (name : String) : Prop :=
  ∃ c ∈ model.traverse, c.isBone = true ∧ c.name = name

/-- The rotation the angle pipeline writes to the bone under key `r` on a frame
with smoothed scalars `sm` and limb vectors `v`, as a function of the bone's
rotation before the frame (lines 253, 254, 258-265, 268-276); the two shoulder
keys are mapped but never animated. -/
def HandTrackingScene.boneUpdate (T : Three K) (sm : HandTrackingScene.SmoothingRef K)
    (v : HandTrackingScene.LimbVecs K) : HandTrackingScene.Role → Quaternion K → Quaternion K
  | .leftShoulder, q => q
  | .rightShoulder, q => q
  | .leftUpperArm, q =>
    T.slerp q (HandTrackingScene.eulerToQuaternion T sm.left.y sm.left.x 0) 0.25
  | .rightUpperArm, q =>
    T.slerp q (HandTrackingScene.eulerToQuaternion T sm.right.y (-sm.right.x) 0) 0.25
  | .leftForearm, q =>
    T.slerp q (HandTrackingScene.eulerToQuaternion T
      (HandTrackingScene.elbowAngle T v.lUpperVec v.lForeVec * 0.8) 0 0) 0.2
  | .rightForearm, q =>
    T.slerp q (HandTrackingScene.eulerToQuaternion T
      (HandTrackingScene.elbowAngle T v.rUpperVec v.rForeVec * 0.8) 0 0) 0.2
  | .leftHand, q =>
    T.slerp q (HandTrackingScene.eulerToQuaternion T (sm.left.y * 0.4) (sm.left.x * 0.4) 0) 0.18
  | .rightHand, q =>
    T.slerp q (HandTrackingScene.eulerToQuaternion T (sm.right.y * 0.4) (-sm.right.x * 0.4) 0)
      0.18

/-- No two keys of the bone map hold the same object. -/
def HandTrackingScene.DistinctBones (bm : HandTrackingScene.BoneMap) : Prop :=
  ∀ r r2 a b, bm r = some a → bm r2 = some b → a.uuid = b.uuid → r = r2

/-- A result with `poseLandmarks` absent: the estimator saw no pose. -/
def noPose : Results K :=
  ⟨none⟩

/-! ## Assumptions on the library, and an instance over any field -/

/-- The properties of the three.js operations that the properties below rely
on where they say so.  Each holds of three.js in exact arithmetic:

* `angleTo` is `acos(clamp(u·v / sqrt(|u|²|v|²), -1, 1))`, which is `0` for
  `v = u ≠ 0`, and is `π / 2` when that square root is `0`;
* `normalize` divides by `length() || 1`, so it leaves the zero vector alone;
* `setFromEuler` of a pure pitch `a` is `(sin(a/2), 0, 0, cos(a/2))`;
* `slerp` with `0 < t < 1` between unit quaternions returns its receiver only
  when the target is the receiver or its negative;
* `lookAt` of an object's own position builds the identity (`Matrix4.lookAt`
  replaces a zero view direction by the z axis). -/
structure Three.Lawful (T : Three K) : Prop where
  angleTo_self : ∀ u : Vector3 K, u.lengthSq ≠ 0 → T.angleTo u u = 0
  angleTo_degenerate : ∀ u v : Vector3 K, u.lengthSq * v.lengthSq = 0 →
    3 / 2 ≤ T.angleTo u v ∧ T.angleTo u v ≤ 8 / 5
  normalize_zero : T.normalize ⟨0, 0, 0⟩ = ⟨0, 0, 0⟩
  setFromEuler_pitch : ∀ a : K, 0 < a → a < 6 →
    ∃ s c : K, T.setFromEuler ⟨a, 0, 0⟩ = ⟨s, 0, 0, c⟩ ∧ 0 < s ∧ s * s + c * c = 1
  slerp_moves : ∀ (q r : Quaternion K) (t : K), q.lengthSq = 1 → r.lengthSq = 1 →
    0 < t → t < 1 → T.slerp q r t = q → r = q ∨ r = q.neg
  lookAt_self : ∀ p : Vector3 K, T.lookAt p p = Quaternion.identity

/-- The sine of half the angle `a`, replaced by the rational point of the unit
circle with parameter `a / 4`. -/
def sinHalf (a : K) : K :=
  2 * (a / 4) / (1 + (a / 4) * (a / 4))

/-- The cosine of half the angle `a`, replaced in the same way. -/
def cosHalf (a : K) : K :=
  (1 - (a / 4) * (a / 4)) / (1 + (a / 4) * (a / 4))

/-- An instance of the library interface over any field, in which each
transcendental step of three.js is replaced by a rational one of the same shape:
`11 / 7` for `π / 2`, `1 - c|c|` for `acos c / (π / 2)`, the 1-norm for the
length, `sinHalf` and `cosHalf` in the `"YXZ"` formula of `setFromEuler`, a
linear blend for the spherical one, the unnormalised shortest arc from the z
axis for `lookAt`, and the local rotation for the world rotation.  It runs the
handlers on concrete frames and shows that `Three.Lawful` can be met; the
properties of the handlers hold for every `T : Three K`. -/
def Three.rational : Three K where
  angleTo u v :=
    if u.lengthSq * v.lengthSq = 0 then 11 / 7
    else 11 / 7 * (1 - u.dot v * |u.dot v| / (u.lengthSq * v.lengthSq))
  normalize v :=
    if |v.x| + |v.y| + |v.z| = 0 then v
    else v.multiplyScalar (1 / (|v.x| + |v.y| + |v.z|))
  setFromEuler e :=
    let c1 := cosHalf e.x
    let c2 := cosHalf e.y
    let c3 := cosHalf e.z
    let s1 := sinHalf e.x
    let s2 := sinHalf e.y
    let s3 := sinHalf e.z
    ⟨s1 * c2 * c3 + c1 * s2 * s3, c1 * s2 * c3 - s1 * c2 * s3,
     c1 * c2 * s3 - s1 * s2 * c3, c1 * c2 * c3 + s1 * s2 * s3⟩
  slerp qa qb t :=
    if t = 0 then qa
    else if t = 1 then qb
    else
      let qb := if qa.dot qb < 0 then qb.neg else qb
      if 1 ≤ |qa.dot qb| then qa
      else ⟨(1 - t) * qa.x + t * qb.x, (1 - t) * qa.y + t * qb.y,
            (1 - t) * qa.z + t * qb.z, (1 - t) * qa.w + t * qb.w⟩
  lookAt p target :=
    ⟨-(target.y - p.y), target.x - p.x, 0, 1 + (target.z - p.z)⟩
  getWorldQuaternion rot u := rot u

/-! ## Concrete scenes and frames -/

/-- The left hand bone of `ybot`. -/
def ybotHandL : Object3D :=
  .mk 4 "DEF-handL" true (some 3) []

/-- The left forearm bone of `ybot`. -/
def ybotForearmL : Object3D :=
  .mk 3 "DEF-forearmL" true (some 2) [ybotHandL]

/-- The left upper-arm bone of `ybot`. -/
def ybotUpperArmL : Object3D :=
  .mk 2 "DEF-upper_armL" true (some 1) [ybotForearmL]

/-- A scene graph with the eight `DEF-` arm bones of the rig under its root. -/
def ybot : Object3D :=
  .mk 0 "Scene" false none
    [.mk 1 "DEF-shoulderL" true (some 0) [ybotUpperArmL],
     .mk 5 "DEF-shoulderR" true (some 0)
       [.mk 6 "DEF-upper_armR" true (some 5)
         [.mk 7 "DEF-forearmR" true (some 6) [.mk 8 "DEF-handR" true (some 7) []]]]]

/-- The same asset without a left hand bone. -/
def ybotNoHandL : Object3D :=
  .mk 0 "Scene" false none
    [.mk 1 "DEF-shoulderL" true (some 0)
       [.mk 2 "DEF-upper_armL" true (some 1) [.mk 3 "DEF-forearmL" true (some 2) []]],
     .mk 5 "DEF-shoulderR" true (some 0)
       [.mk 6 "DEF-upper_armR" true (some 5)
         [.mk 7 "DEF-forearmR" true (some 6) [.mk 8 "DEF-handR" true (some 7) []]]]]

/-- A pose array of 33 landmarks: the six arm landmarks at indices 11 to 16, the
image centre everywhere else. -/
def frame (lShoulder rShoulder lElbow rElbow lWrist rWrist : Landmark K) :
    List (Landmark K) :=
  [⟨0.5, 0.5, 0⟩, ⟨0.5, 0.5, 0⟩, ⟨0.5, 0.5, 0⟩, ⟨0.5, 0.5, 0⟩, ⟨0.5, 0.5, 0⟩, ⟨0.5, 0.5, 0⟩,
   ⟨0.5, 0.5, 0⟩, ⟨0.5, 0.5, 0⟩, ⟨0.5, 0.5, 0⟩, ⟨0.5, 0.5, 0⟩, ⟨0.5, 0.5, 0⟩,
   lShoulder, rShoulder, lElbow, rElbow, lWrist, rWrist,
   ⟨0.5, 0.5, 0⟩, ⟨0.5, 0.5, 0⟩, ⟨0.5, 0.5, 0⟩, ⟨0.5, 0.5, 0⟩, ⟨0.5, 0.5, 0⟩, ⟨0.5, 0.5, 0⟩,
   ⟨0.5, 0.5, 0⟩, ⟨0.5, 0.5, 0⟩, ⟨0.5, 0.5, 0⟩, ⟨0.5, 0.5, 0⟩, ⟨0.5, 0.5, 0⟩, ⟨0.5, 0.5, 0⟩,
   ⟨0.5, 0.5, 0⟩, ⟨0.5, 0.5, 0⟩, ⟨0.5, 0.5, 0⟩, ⟨0.5, 0.5, 0⟩]

/-- The angle pipeline right after `ybot` has loaded: every bone at the
identity, the smoothing state at its initial zeros. -/
def loadedScene : HandTrackingScene.Scene K :=
  { boneMap := some (HandTrackingScene.mapYBotBones ybot)
    quaternion := fun _ => Quaternion.identity
    smoothing := HandTrackingScene.SmoothingRef.initial
    status := "Model loaded. Waiting for pose..." }

/-- A frame whose left wrist coincides with the left elbow: the left lower-limb
vector has length zero. -/
def degenerateFrame : List (Landmark K) :=
  frame ⟨0.5, 0.5, 0⟩ ⟨0.4, 0.5, 0⟩ ⟨0.5, 0.7, 0⟩ ⟨0.4, 0.7, 0⟩ ⟨0.5, 0.7, 0⟩ ⟨0.3, 0.8, 0⟩

/-- Rotations of the look-at scene in which the left upper arm is turned by half
a turn about its x axis and every other node is at the identity. -/
def halfTurnRotations : Nat → Quaternion K :=
  fun u => if u = 2 then ⟨1, 0, 0, 0⟩ else Quaternion.identity

/-- The mirror image of a landmark about the vertical centre line of the image. -/
def mirror (l : Landmark K) : Landmark K :=
  ⟨1 - l.x, l.y, l.z⟩

/-- A frame whose right-arm landmarks are the mirror images of the left-arm ones. -/
def mirroredFrame : List (Landmark K) :=
  frame ⟨0.6, 0.5, 0⟩ ⟨0.4, 0.5, 0⟩ ⟨0.7, 0.6, 0⟩ ⟨0.3, 0.6, 0⟩ ⟨0.8, 0.7, 0⟩ ⟨0.2, 0.7, 0⟩

/-- A frame with the left elbow straight above the left shoulder in the image:
the left upper-limb vector is `(0, 0.3, 0)`. -/
def raisedFrame : List (Landmark K) :=
  frame ⟨0.5, 0.5, 0⟩ ⟨0.4, 0.5, 0⟩ ⟨0.5, 0.3, 0⟩ ⟨0.4, 0.7, 0⟩ ⟨0.5, 0.1, 0⟩ ⟨0.4, 0.9, 0⟩

/-- A frame whose left shoulder, elbow and wrist landmarks go to the points
`(0, 0, 0)`, `(0, -0.3, 0)` and `(0, -0.6, 0)` under `mpToVec`; the right-arm
landmarks are free. -/
def hangingFrame (rShoulder rElbow rWrist : Landmark K) : List (Landmark K) :=
  frame ⟨0.5, 0.5, 0⟩ rShoulder ⟨0.5, 0.7, 0⟩ rElbow ⟨0.5, 0.9, 0⟩ rWrist

/-- A frame whose left shoulder, elbow and wrist landmarks are themselves the
points `(0, 0, 0)`, `(0, -0.3, 0)` and `(0, -0.6, 0)`; the right-arm landmarks
are free. -/
def rawHangingFrame (rShoulder rElbow rWrist : Landmark K) : List (Landmark K) :=
  frame ⟨0, 0, 0⟩ rShoulder ⟨0, -0.3, 0⟩ rElbow ⟨0, -0.6, 0⟩ rWrist

/-! ## Teardown -/

/-- The object under `video.srcObject`: `getTracks` is absent (`none`) or returns
the capture tracks, each named by a number. -/
structure MediaStream where
  getTracks : Option (List Nat)

/-- The video element: its `srcObject` is `null` (`none`) or a stream. -/
structure VideoElement where
  srcObject : Option MediaStream

/-- The capture tracks reachable from `videoRef.current`: those its `srcObject`
returns from `getTracks()`, none when the element, the stream or `getTracks` is
missing. -/
def attachedTracks : Option VideoElement → List Nat
  | some ⟨some ⟨some ts⟩⟩ => ts
  | _ => []

/-- What the effect of `HandTrackingScene.jsx` owns when its teardown runs: the
scene of the pose handler, the variable `animationId`, the animation-frame
requests still pending, `videoRef.current` (`none` is `null`), the `stop()`
calls made on capture tracks so far in call order, and whether
`onWindowResize` is registered on `window`. -/
structure HandTrackingScene.Pipeline (K : Type) where
  scene : HandTrackingScene.Scene K
  animationId : Nat
  pendingFrames : List Nat
  video : Option VideoElement
  stopCalls : List Nat
  resizeListener : Bool

/-- Lines 286-299: `cleanup`.  Whatever is thrown inside the `try` is caught and
logged, so nothing escapes. -/
def HandTrackingScene.cleanup (p : HandTrackingScene.Pipeline K) :
    Outcome (HandTrackingScene.Pipeline K) :=
  let p := { p with pendingFrames := p.pendingFrames.filter (fun i => i != p.animationId) }
  let p :=
    match p.video with
    | some ⟨some s⟩ =>
      let p :=
        match s.getTracks with
        | some ts => { p with stopCalls := p.stopCalls ++ ts }
        | none => p
      { p with video := some ⟨none⟩ }
    | _ => p
  let p := { p with resizeListener := false }
  ⟨p, false⟩

/-- What the effect of `debug.jsx` owns when its teardown runs: the scene of the
holistic handler, `videoRef.current` and the `stop()` calls made on capture
tracks so far. -/
structure Debug.Pipeline (K : Type) where
  scene : Debug.Scene K
  video : Option VideoElement
  stopCalls : List Nat

/-- Line 270: the teardown of the effect is `() => {}`. -/
def Debug.teardown (p : Debug.Pipeline K) : Outcome (Debug.Pipeline K) :=
  ⟨p, false⟩

/-- A look-at pipeline whose camera has started: one capture track, numbered 7,
is attached to the video element and has not been stopped. -/
def Debug.startedPipeline : Debug.Pipeline K :=
  { scene := { bones := Debug.bones ybot
               quaternion := fun _ => Quaternion.identity
               status := "Tracking active ✓" }
    video := some ⟨some ⟨some [7]⟩⟩
    stopCalls := [] }

/-- An angle pipeline with `ybot` loaded and the camera started: one capture
track, numbered 7, is attached and one animation frame is pending. -/
def startedPipeline : HandTrackingScene.Pipeline K :=
  { scene := loadedScene
    animationId := 1
    pendingFrames := [1]
    video := some ⟨some ⟨some [7]⟩⟩
    stopCalls := []
    resizeListener := true }

/-! ## Targets and ranges -/

/-- The Euler angles line 270 hands to `eulerToQuaternion` for the left hand. -/
def HandTrackingScene.leftHandTarget (sm : HandTrackingScene.SmoothingRef K) : Euler K :=
  ⟨sm.left.y * 0.4, sm.left.x * 0.4, 0⟩

/-- The Euler angles line 274 hands to `eulerToQuaternion` for the right hand. -/
def HandTrackingScene.rightHandTarget (sm : HandTrackingScene.SmoothingRef K) : Euler K :=
  ⟨sm.right.y * 0.4, -sm.right.x * 0.4, 0⟩

/-- The Euler angles lines 259 and 263 hand to `eulerToQuaternion` for a forearm
with the given limb vectors. -/
def HandTrackingScene.forearmTarget (T : Three K) (upperVec foreVec : Vector3 K) : Euler K :=
  ⟨HandTrackingScene.elbowAngle T upperVec foreVec * 0.8, 0, 0⟩

/-- The four smoothed scalars all lie in `[-1.3, 1.3]`. -/
def HandTrackingScene.InRange (sm : HandTrackingScene.SmoothingRef K) : Prop :=
  (-1.3 ≤ sm.left.x ∧ sm.left.x ≤ 1.3) ∧ (-1.3 ≤ sm.left.y ∧ sm.left.y ≤ 1.3) ∧
  (-1.3 ≤ sm.right.x ∧ sm.right.x ≤ 1.3) ∧ (-1.3 ≤ sm.right.y ∧ sm.right.y ≤ 1.3)

/-- Rotations of the look-at scene in which the left shoulder bone is turned by
half a turn about its x axis and every other node is at the identity. -/
def shoulderTurnRotations : Nat → Quaternion K :=
  fun u => if u = 1 then ⟨1, 0, 0, 0⟩ else Quaternion.identity

/-- The left shoulder bone of `ybot`. -/
def ybotShoulderL : Object3D :=
  .mk 1 "DEF-shoulderL" true (some 0) [ybotUpperArmL]

/-- The four raw scalars a frame with limb vectors `v` feeds to the smoothing
step (lines 224, 225, 232, 233), laid out like the smoothing state. -/
def HandTrackingScene.rawScalars (v : HandTrackingScene.LimbVecs K) :
    HandTrackingScene.SmoothingRef K :=
  { left := { x := HandTrackingScene.yaw v.lUpperVec, y := HandTrackingScene.pitch v.lUpperVec }
    right := { x := HandTrackingScene.yaw v.rUpperVec, y := HandTrackingScene.pitch v.rUpperVec } }

/-! ## Theorems -/

section Theorems

open HandTrackingScene

/-- A clamped value lies between its bounds when the bounds are ordered. -/
theorem clamp_mem (v a b : K) (hab : a ≤ b) : a ≤ clamp v a b ∧ clamp v a b ≤ b := by
  unfold clamp
  exact ⟨le_max_left _ _, max_le hab (min_le_left _ _)⟩

/-- C1: in the angle pipeline, for every upper- and lower-limb vector (so for
the vectors of lines 212-216 on either side, whatever the landmarks), the raw
pitch and the raw yaw lie in [-1.3, 1.3] and the raw elbow-bend angle lies in
[0, 2.0]. -/
theorem raw_angles_in_clamp_range (T : Three K) (upperVec foreVec : Vector3 K) :
    (-1.3 ≤ pitch upperVec ∧ pitch upperVec ≤ 1.3) ∧
    (-1.3 ≤ yaw upperVec ∧ yaw upperVec ≤ 1.3) ∧
    (0 ≤ elbowAngle T upperVec foreVec ∧ elbowAngle T upperVec foreVec ≤ 2.0) := by
  refine ⟨?_, ?_, ?_⟩
  · exact clamp_mem _ _ _ (by norm_num)
  · exact clamp_mem _ _ _ (by norm_num)
  · exact clamp_mem _ _ _ (by norm_num)

/-- The distance to the raw value shrinks by the factor 0.82 at each smoothing step. -/
theorem lerp_sub (s r : K) : lerp s r 0.18 - r = 0.82 * (s - r) := by
  unfold lerp
  ring

/-- Closed form of the smoothed scalar after `n` frames with the same raw value. -/
theorem lerp_iterate_sub (r s0 : K) (n : ℕ) :
    (fun s => lerp s r 0.18)^[n] s0 - r = 0.82 ^ n * (s0 - r) := by
  induction n with
  | zero => simp
  | succ n ih =>
    rw [Function.iterate_succ_apply', lerp_sub, ih, pow_succ]
    ring

/-- The smoothed scalar comes within any `ε > 0` of the raw value it is fed. -/
theorem lerp_iterate_tendsto [Archimedean K] (r s0 ε : K) (hε : 0 < ε) :
    ∃ N : ℕ, ∀ n : ℕ, N ≤ n → |(fun s => lerp s r 0.18)^[n] s0 - r| < ε := by
  have h0 : (0 : K) ≤ 0.82 := by norm_num
  have h1 : (0.82 : K) < 1 := by norm_num
  have hpos : 0 < ε / (|s0 - r| + 1) := div_pos hε (by positivity)
  obtain ⟨N, hN⟩ := exists_pow_lt_of_lt_one hpos h1
  refine ⟨N, fun n hn => ?_⟩
  rw [lerp_iterate_sub, abs_mul, abs_of_nonneg (pow_nonneg h0 n)]
  have hle : (0.82 : K) ^ n ≤ 0.82 ^ N := pow_le_pow_of_le_one h0 h1.le hn
  have hlt : (0.82 : K) ^ n < ε / (|s0 - r| + 1) := lt_of_le_of_lt hle hN
  have hd : (0 : K) < |s0 - r| + 1 := by positivity
  calc (0.82 : K) ^ n * |s0 - r| ≤ 0.82 ^ n * (|s0 - r| + 1) := by
        apply mul_le_mul_of_nonneg_left _ (pow_nonneg h0 n)
        linarith
    _ < ε / (|s0 - r| + 1) * (|s0 - r| + 1) := by
        exact mul_lt_mul_of_pos_right hlt hd
    _ = ε := by field_simp

/-- C9: the landmark normaliser of the look-at pipeline is the function
`(x, y, z) ↦ ((0.5 - x) * 2, (0.5 - y) * 2, -z * 2)` of the landmark alone; the
image centre `(0.5, 0.5, 0)` maps to the origin, a larger image `y` gives a
strictly smaller output `y`, and a negative `z` gives a positive output `z`. -/
theorem normalize_formula (l : Landmark K) :
    Debug.normalize l = ⟨(0.5 - l.x) * 2, (0.5 - l.y) * 2, -l.z * 2⟩ ∧
    Debug.normalize (⟨0.5, 0.5, 0⟩ : Landmark K) = ⟨0, 0, 0⟩ ∧
    (∀ l2 : Landmark K, l.y < l2.y → (Debug.normalize l2).y < (Debug.normalize l).y) ∧
    (∀ l2 : Landmark K, l2.z < 0 → 0 < (Debug.normalize l2).z) := by
  refine ⟨?_, ?_, ?_, ?_⟩
  · simp only [Debug.normalize, Vector3.mk.injEq]
    refine ⟨by ring, trivial, trivial⟩
  · simp [Debug.normalize]
  · intro l2 h
    simp only [Debug.normalize]
    linarith
  · intro l2 h
    simp only [Debug.normalize]
    linarith

/-- What the overwriting loop of `findBone` returns on a list of nodes, started
from `acc`: a result is `acc` or a matching node of the list. -/
theorem findBone_foldl_some (name : String) (l : List Object3D) (acc : Option Object3D)
    (b : Object3D)
    (h : l.foldl (fun found c => if c.isBone && c.name == name then some c else found) acc
      = some b) :
    acc = some b ∨ (b ∈ l ∧ b.isBone = true ∧ b.name = name) := by
  induction l generalizing acc with
  | nil => exact Or.inl h
  | cons c cs ih =>
    rw [List.foldl_cons] at h
    rcases ih _ h with h1 | ⟨hm, hb, hn⟩
    · by_cases hc : (c.isBone && c.name == name) = true
      · rw [if_pos hc] at h1
        have hcb : c = b := Option.some.inj h1
        subst hcb
        simp only [Bool.and_eq_true, beq_iff_eq] at hc
        exact Or.inr ⟨List.mem_cons_self _ _, hc.1, hc.2⟩
      · rw [if_neg hc] at h1
        exact Or.inl h1
    · exact Or.inr ⟨List.mem_cons_of_mem _ hm, hb, hn⟩

/-- The overwriting loop of `findBone` returns nothing only when it started
from nothing and no node of the list matches. -/
theorem findBone_foldl_none (name : String) (l : List Object3D) (acc : Option Object3D)
    (h : l.foldl (fun found c => if c.isBone && c.name == name then some c else found) acc
      = none) :
    acc = none ∧ ∀ c ∈ l, ¬ (c.isBone = true ∧ c.name = name) := by
  induction l generalizing acc with
  | nil => exact ⟨h, fun c hc => absurd hc (List.not_mem_nil c)⟩
  | cons c cs ih =>
    rw [List.foldl_cons] at h
    obtain ⟨h1, h2⟩ := ih _ h
    by_cases hc : (c.isBone && c.name == name) = true
    · rw [if_pos hc] at h1
      exact absurd h1 (Option.some_ne_none c)
    · rw [if_neg hc] at h1
      refine ⟨h1, fun d hd => ?_⟩
      rcases List.mem_cons.mp hd with rfl | hd
      · simpa only [Bool.and_eq_true, beq_iff_eq] using hc
      · exact h2 d hd

/-- A bone `findBone` returns is a bone of the graph with the name asked for. -/
theorem findBone_some (model : Object3D) (name : String) (b : Object3D)
    (h : Debug.findBone model name = some b) :
    b ∈ model.traverse ∧ b.isBone = true ∧ b.name = name := by
  rcases findBone_foldl_some name _ none b h with h1 | h1
  · exact absurd h1 (Option.noConfusion)
  · exact h1

/-- The lookup `findBone` returns a bone exactly when the graph has a bone of that name. -/
theorem findBone_isSome_iff (model : Object3D) (name : String) :
    (∃ b, Debug.findBone model name = some b) ↔ Debug.HasBone model name := by
  constructor
  · rintro ⟨b, hb⟩
    exact ⟨b, findBone_some model name b hb⟩
  · rintro ⟨c, hc, hcb⟩
    cases hf : Debug.findBone model name with
    | some b => exact ⟨b, rfl⟩
    | none => exact absurd hcb ((findBone_foldl_none name _ none hf).2 c hc)

/-- C10: for every scene graph and every key of the look-at pipeline's bone
table, the entry is a bone of the graph with the primary (`DEF-...`) name when
the graph has a bone of that name, else a bone of the graph with the fallback
name when it has one of that name, else absent; the lookup is a total function
(it raises nothing), and an entry that is present is a node of the graph whose
name is one of the key's two candidates. -/
theorem bones_resolution (model : Object3D) (r : Debug.Role) :
    (Debug.HasBone model r.primary →
      ∃ b, Debug.bones model r = some b ∧ b ∈ model.traverse ∧ b.isBone = true ∧
        b.name = r.primary) ∧
    (¬ Debug.HasBone model r.primary → Debug.HasBone model r.fallback →
      ∃ b, Debug.bones model r = some b ∧ b ∈ model.traverse ∧ b.isBone = true ∧
        b.name = r.fallback) ∧
    (¬ Debug.HasBone model r.primary → ¬ Debug.HasBone model r.fallback →
      Debug.bones model r = none) ∧
    (∀ b, Debug.bones model r = some b →
      b ∈ model.traverse ∧ b.isBone = true ∧ (b.name = r.primary ∨ b.name = r.fallback)) := by
  have hnone : ∀ name, ¬ Debug.HasBone model name → Debug.findBone model name = none := by
    intro name hn
    cases hf : Debug.findBone model name with
    | none => rfl
    | some b => exact absurd ((findBone_isSome_iff model name).mp ⟨b, hf⟩) hn
  refine ⟨?_, ?_, ?_, ?_⟩
  · intro hp
    obtain ⟨b, hb⟩ := (findBone_isSome_iff model r.primary).mpr hp
    refine ⟨b, ?_, findBone_some model _ b hb⟩
    simp [Debug.bones, hb]
  · intro hp hf
    obtain ⟨b, hb⟩ := (findBone_isSome_iff model r.fallback).mpr hf
    refine ⟨b, ?_, findBone_some model _ b hb⟩
    simp [Debug.bones, hnone _ hp, hb]
  · intro hp hf
    simp [Debug.bones, hnone _ hp, hnone _ hf]
  · intro b hb
    unfold Debug.bones at hb
    cases hp : Debug.findBone model r.primary with
    | some c =>
      rw [hp] at hb
      simp only [Option.orElse] at hb
      have hcb : c = b := Option.some.inj hb
      subst hcb
      obtain ⟨h1, h2, h3⟩ := findBone_some model _ c hp
      exact ⟨h1, h2, Or.inl h3⟩
    | none =>
      rw [hp] at hb
      simp only [Option.orElse] at hb
      obtain ⟨h1, h2, h3⟩ := findBone_some model _ b hb
      exact ⟨h1, h2, Or.inr h3⟩

/-- A no-pose frame leaves the rotations and the smoothing state of the angle
pipeline as they were and raises nothing. -/
theorem onPoseResults_noPose (T : Three K) (s : Scene K) :
    (onPoseResults T s noPose).scene.quaternion = s.quaternion ∧
    (onPoseResults T s noPose).scene.smoothing = s.smoothing ∧
    (onPoseResults T s noPose).scene.boneMap = s.boneMap ∧
    (onPoseResults T s noPose).threw = false := by
  unfold onPoseResults noPose
  cases h : s.boneMap <;> simp [h]

/-- Any number of no-pose frames leaves the rotations, the smoothing state and
the bone map of the angle pipeline as they were. -/
theorem runFrames_noPose (T : Three K) (N : ℕ) (s : Scene K) :
    (runFrames T s (List.replicate N noPose)).quaternion = s.quaternion ∧
    (runFrames T s (List.replicate N noPose)).smoothing = s.smoothing ∧
    (runFrames T s (List.replicate N noPose)).boneMap = s.boneMap := by
  induction N generalizing s with
  | zero => exact ⟨rfl, rfl, rfl⟩
  | succ n ih =>
    obtain ⟨h1, h2, h3, _⟩ := onPoseResults_noPose T s
    obtain ⟨i1, i2, i3⟩ := ih (onPoseResults T s noPose).scene
    rw [List.replicate_succ, runFrames]
    exact ⟨i1.trans h1, i2.trans h2, i3.trans h3⟩

/-- Any number of no-pose frames leaves the scene of the look-at pipeline as it was. -/
theorem debug_runFrames_noPose (T : Three K) (N : ℕ) (d : Debug.Scene K) :
    Debug.runFrames T d (List.replicate N noPose) = d := by
  induction N with
  | zero => rfl
  | succ n ih =>
    rw [List.replicate_succ, Debug.runFrames]
    exact ih

/-- C4: a pose result without landmarks leaves every bone rotation unchanged in
both pipelines and leaves the smoothing state of the angle pipeline unchanged,
without raising; hence after any `N` consecutive no-pose frames every bone
rotation (and the smoothing state) equals its value before the gap: the last
pose is held, not reset to the identity. -/
theorem no_pose_holds_last_pose (T : Three K) (s : Scene K) (d : Debug.Scene K) (N : ℕ) :
    ((onPoseResults T s noPose).scene.quaternion = s.quaternion ∧
      (onPoseResults T s noPose).scene.smoothing = s.smoothing ∧
      (onPoseResults T s noPose).threw = false) ∧
    ((Debug.onResults T d noPose).scene = d ∧ (Debug.onResults T d noPose).threw = false) ∧
    ((runFrames T s (List.replicate N noPose)).quaternion = s.quaternion ∧
      (runFrames T s (List.replicate N noPose)).smoothing = s.smoothing) ∧
    (Debug.runFrames T d (List.replicate N noPose)).quaternion = d.quaternion := by
  obtain ⟨h1, h2, _, h4⟩ := onPoseResults_noPose T s
  obtain ⟨i1, i2, _⟩ := runFrames_noPose T N s
  refine ⟨⟨h1, h2, h4⟩, ⟨rfl, rfl⟩, ⟨i1, i2⟩, ?_⟩
  rw [debug_runFrames_noPose]

/-- The rotation of the object with `uuid` `u` after `slerpTo`. -/
theorem slerpTo_apply (T : Three K) (rot : Nat → Quaternion K) (obj : Option Object3D)
    (tq : Quaternion K) (t : K) (u : Nat) :
    slerpTo T rot obj tq t u
      = if obj.map Object3D.uuid = some u then T.slerp (rot u) tq t else rot u := by
  cases obj with
  | none => simp [slerpTo]
  | some o =>
    simp only [slerpTo, setQuaternion, Function.update_apply, Option.map_some',
      Option.some.injEq]
    by_cases h : u = o.uuid
    · subst h
      simp
    · have h2 : ¬ o.uuid = u := fun e => h e.symm
      simp [h, h2]

/-- The guard `if (bm.key)` in front of a `slerpTo` repeats the guard inside it. -/
theorem slerpTo_guard (T : Three K) (rot : Nat → Quaternion K) (obj : Option Object3D)
    (tq : Quaternion K) (t : K) :
    (if obj.isSome then slerpTo T rot obj tq t else rot) = slerpTo T rot obj tq t := by
  cases obj <;> simp [slerpTo]

/-- With no object under two keys, the bone under key `r` leaves the frame with
exactly the update of key `r`. -/
theorem applyBones_present (T : Three K) (bm : BoneMap) (rot : Nat → Quaternion K)
    (sm : SmoothingRef K) (v : LimbVecs K) (hd : DistinctBones bm) (r : Role) (b : Object3D)
    (h : bm r = some b) :
    applyBones T bm rot sm v b.uuid = boneUpdate T sm v r (rot b.uuid) := by
  have key : ∀ r2, r2 ≠ r → ¬ (bm r2).map Object3D.uuid = some b.uuid := by
    intro r2 hne hm
    cases h2 : bm r2 with
    | none => simp [h2] at hm
    | some a =>
      simp only [h2, Option.map_some', Option.some.injEq] at hm
      exact hne (hd r2 r a b h2 h hm)
  simp only [applyBones, slerpTo_guard, slerpTo_apply]
  cases r <;>
    simp [boneUpdate, h, key]

/-- An object that is under no key of the bone map keeps its rotation. -/
theorem applyBones_absent (T : Three K) (bm : BoneMap) (rot : Nat → Quaternion K)
    (sm : SmoothingRef K) (v : LimbVecs K) (u : Nat)
    (h : ∀ r b, bm r = some b → b.uuid ≠ u) :
    applyBones T bm rot sm v u = rot u := by
  have key : ∀ r, ¬ (bm r).map Object3D.uuid = some u := by
    intro r hm
    cases h2 : bm r with
    | none => simp [h2] at hm
    | some a =>
      simp only [h2, Option.map_some', Option.some.injEq] at hm
      exact h r a h2 hm
  simp [applyBones, slerpTo_guard, slerpTo_apply, key]

/-- An array of at least 17 landmarks has the six entries the angle pipeline reads. -/
theorem limbVecs_isSome (lm : List (Landmark K)) (h : 16 < lm.length) :
    ∃ v, limbVecs lm = some v := by
  have h11 : 11 < lm.length := by omega
  have h12 : 12 < lm.length := by omega
  have h13 : 13 < lm.length := by omega
  have h14 : 14 < lm.length := by omega
  have h15 : 15 < lm.length := by omega
  simp [limbVecs, L_SHOULDER, R_SHOULDER, L_ELBOW, R_ELBOW, L_WRIST, R_WRIST,
    List.getElem?_eq_getElem, h, h11, h12, h13, h14, h15]

/-- The outcome of a frame with landmarks on a loaded model. -/
theorem onPoseResults_pose (T : Three K) (s : Scene K) (bm : BoneMap) (lm : List (Landmark K))
    (v : LimbVecs K) (hb : s.boneMap = some bm) (hv : limbVecs lm = some v) :
    onPoseResults T s ⟨some lm⟩ =
      ⟨{ boneMap := some bm
         quaternion := applyBones T bm s.quaternion (smooth s.smoothing v) v
         smoothing := smooth s.smoothing v
         status := "Pose detected" }, false⟩ := by
  simp [onPoseResults, hb, hv]

/-- C5: on a frame with at least 17 landmarks, for a bone map `full` with no
object under two keys (in particular the complete one) and any bone map `bm`
that holds, under each key, either `null` or the object `full` holds there, the
handler completes without raising, leaves the rotation of every bone whose key
is `null` in `bm` as it was, and gives every bone present in `bm` exactly the
rotation it gets under `full`. -/
theorem absent_bones_skipped (T : Three K) (s : Scene K) (lm : List (Landmark K))
    (full bm : BoneMap) (hlm : 16 < lm.length) (hfull : DistinctBones full)
    (hsub : ∀ r, bm r = none ∨ (bm r).map Object3D.uuid = (full r).map Object3D.uuid) :
    (onPoseResults T { s with boneMap := some bm } ⟨some lm⟩).threw = false ∧
    (∀ r b, bm r = none → full r = some b →
      (onPoseResults T { s with boneMap := some bm } ⟨some lm⟩).scene.quaternion b.uuid
        = s.quaternion b.uuid) ∧
    (∀ r b, bm r = some b →
      (onPoseResults T { s with boneMap := some bm } ⟨some lm⟩).scene.quaternion b.uuid
        = (onPoseResults T { s with boneMap := some full } ⟨some lm⟩).scene.quaternion
            b.uuid) := by
  obtain ⟨v, hv⟩ := limbVecs_isSome lm hlm
  have hup : ∀ r a, bm r = some a → ∃ c, full r = some c ∧ c.uuid = a.uuid := by
    intro r a ha
    rcases hsub r with h | h
    · rw [h] at ha
      exact absurd ha (by simp)
    · rw [ha] at h
      cases hf : full r with
      | none => simp [hf] at h
      | some c =>
        refine ⟨c, rfl, ?_⟩
        simpa [hf] using h.symm
  have hbm : DistinctBones bm := by
    intro r r2 a b ha hb hab
    obtain ⟨c, hc, hca⟩ := hup r a ha
    obtain ⟨d, hd, hdb⟩ := hup r2 b hb
    exact hfull r r2 c d hc hd (by rw [hca, hdb, hab])
  rw [onPoseResults_pose T { s with boneMap := some bm } bm lm v rfl hv,
    onPoseResults_pose T { s with boneMap := some full } full lm v rfl hv]
  refine ⟨rfl, ?_, ?_⟩
  · intro r b hn hf
    apply applyBones_absent
    intro r2 a ha hau
    obtain ⟨c, hc, hca⟩ := hup r2 a ha
    have hr : r2 = r := hfull r2 r c b hc hf (by rw [hca, hau])
    rw [hr, hn] at ha
    exact absurd ha (by simp)
  · intro r b hb
    obtain ⟨c, hc, hcb⟩ := hup r b hb
    show applyBones T bm _ _ v b.uuid = applyBones T full _ _ v b.uuid
    rw [applyBones_present T bm _ _ v hbm r b hb, ← hcb,
      applyBones_present T full _ _ v hfull r c hc]

mutual
/-- An object `getObjectByName` returns is a node of the graph with that name. -/
theorem getObjectByName_mem (nm : String) :
    ∀ (o b : Object3D), Object3D.getObjectByName nm o = some b →
      b ∈ o.traverse ∧ b.name = nm
  | .mk u n bb p cs, b, h => by
    rw [Object3D.getObjectByName] at h
    rw [Object3D.traverse]
    by_cases hn : n = nm
    · rw [if_pos hn] at h
      have hb : Object3D.mk u n bb p cs = b := Option.some.inj h
      subst hb
      exact ⟨List.mem_cons_self _ _, hn⟩
    · rw [if_neg hn] at h
      obtain ⟨h1, h2⟩ := getObjectByNameList_mem nm cs b h
      exact ⟨List.mem_cons_of_mem _ h1, h2⟩
/-- The same for the loop over the children. -/
theorem getObjectByNameList_mem (nm : String) :
    ∀ (cs : List Object3D) (b : Object3D), Object3D.getObjectByNameList nm cs = some b →
      b ∈ Object3D.traverseList cs ∧ b.name = nm
  | [], b, h => by
    rw [Object3D.getObjectByNameList] at h
    exact absurd h (by simp)
  | c :: cs, b, h => by
    rw [Object3D.getObjectByNameList] at h
    rw [Object3D.traverseList]
    cases hc : Object3D.getObjectByName nm c with
    | some o =>
      rw [hc] at h
      have hb : o = b := Option.some.inj h
      subst hb
      obtain ⟨h1, h2⟩ := getObjectByName_mem nm c o hc
      exact ⟨List.mem_append_left _ h1, h2⟩
    | none =>
      rw [hc] at h
      obtain ⟨h1, h2⟩ := getObjectByNameList_mem nm cs b h
      exact ⟨List.mem_append_right _ h1, h2⟩
end

/-- In a scene graph whose nodes have pairwise different `uuid`s, the bone map
`mapYBotBones` builds has no object under two keys. -/
theorem mapYBotBones_distinct (root : Object3D)
    (h : (root.traverse.map Object3D.uuid).Nodup) : DistinctBones (mapYBotBones root) := by
  intro r r2 a b ha hb hab
  have hinj := List.inj_on_of_nodup_map h
  have key : ∀ (n1 n2 : String), find root n1 = some a → find root n2 = some b → n1 = n2 := by
    intro n1 n2 h1 h2
    obtain ⟨ma, na⟩ := getObjectByName_mem n1 root a h1
    obtain ⟨mb, nb⟩ := getObjectByName_mem n2 root b h2
    have e : a = b := hinj ma mb hab
    rw [← na, ← nb, e]
  cases r <;> cases r2 <;> first
    | rfl
    | exact absurd (key _ _ ha hb) (by decide)

/-- Two unit quaternions whose dot product is at least `1` are equal. -/
theorem quaternion_eq_of_dot (q r : Quaternion K) (hq : q.lengthSq = 1) (hr : r.lengthSq = 1)
    (h : 1 ≤ q.dot r) : r = q := by
  obtain ⟨qx, qy, qz, qw⟩ := q
  obtain ⟨rx, ry, rz, rw⟩ := r
  simp only [Quaternion.lengthSq, Quaternion.dot] at hq hr h
  have hs : (rx - qx) ^ 2 + (ry - qy) ^ 2 + (rz - qz) ^ 2 + (rw - qw) ^ 2 ≤ 0 := by
    nlinarith
  have n1 := sq_nonneg (rx - qx)
  have n2 := sq_nonneg (ry - qy)
  have n3 := sq_nonneg (rz - qz)
  have n4 := sq_nonneg (rw - qw)
  have h1 : (rx - qx) ^ 2 = 0 := by linarith
  have h2 : (ry - qy) ^ 2 = 0 := by linarith
  have h3 : (rz - qz) ^ 2 = 0 := by linarith
  have h4 : (rw - qw) ^ 2 = 0 := by linarith
  have e1 : rx = qx := sub_eq_zero.mp (pow_eq_zero_iff two_ne_zero |>.mp h1)
  have e2 : ry = qy := sub_eq_zero.mp (pow_eq_zero_iff two_ne_zero |>.mp h2)
  have e3 : rz = qz := sub_eq_zero.mp (pow_eq_zero_iff two_ne_zero |>.mp h3)
  have e4 : rw = qw := sub_eq_zero.mp (pow_eq_zero_iff two_ne_zero |>.mp h4)
  simp [e1, e2, e3, e4]

/-- The linear blend returns its first argument only when the two are equal. -/
theorem blend_eq_self (q r : Quaternion K) (t : K) (ht : t ≠ 0)
    (h : (⟨(1 - t) * q.x + t * r.x, (1 - t) * q.y + t * r.y,
            (1 - t) * q.z + t * r.z, (1 - t) * q.w + t * r.w⟩ : Quaternion K) = q) :
    r = q := by
  obtain ⟨qx, qy, qz, qw⟩ := q
  obtain ⟨rx, ry, rz, rw⟩ := r
  simp only [Quaternion.mk.injEq] at h ⊢
  obtain ⟨h1, h2, h3, h4⟩ := h
  refine ⟨?_, ?_, ?_, ?_⟩
  · have : t * (rx - qx) = 0 := by linarith
    rcases mul_eq_zero.mp this with h | h
    · exact absurd h ht
    · linarith
  · have : t * (ry - qy) = 0 := by linarith
    rcases mul_eq_zero.mp this with h | h
    · exact absurd h ht
    · linarith
  · have : t * (rz - qz) = 0 := by linarith
    rcases mul_eq_zero.mp this with h | h
    · exact absurd h ht
    · linarith
  · have : t * (rw - qw) = 0 := by linarith
    rcases mul_eq_zero.mp this with h | h
    · exact absurd h ht
    · linarith

/-- The assumptions on the library can be met: the rational instance meets them. -/
theorem rational_lawful : (Three.rational : Three K).Lawful where
  angleTo_self u hu := by
    have hd : u.lengthSq * u.lengthSq ≠ 0 := mul_ne_zero hu hu
    have hdot : u.dot u = u.lengthSq := rfl
    have hpos : 0 ≤ u.lengthSq := by
      unfold Vector3.lengthSq
      nlinarith [mul_self_nonneg u.x, mul_self_nonneg u.y, mul_self_nonneg u.z]
    simp only [Three.rational, if_neg hd, hdot, abs_of_nonneg hpos]
    rw [div_self hd]
    ring
  angleTo_degenerate u v h := by
    simp only [Three.rational, if_pos h]
    constructor <;> norm_num
  normalize_zero := by
    simp [Three.rational]
  setFromEuler_pitch a h0 h6 := by
    refine ⟨sinHalf a, cosHalf a, ?_, ?_, ?_⟩
    · simp [Three.rational, sinHalf, cosHalf]
    · unfold sinHalf
      positivity
    · unfold sinHalf cosHalf
      have hp : (1 + a / 4 * (a / 4)) ≠ 0 := by positivity
      field_simp
      ring
  slerp_moves q r t hq hr h0 h1 h := by
    have ht0 : t ≠ 0 := ne_of_gt h0
    have ht1 : t ≠ 1 := ne_of_lt h1
    simp only [Three.rational, if_neg ht0, if_neg ht1] at h
    by_cases hneg : q.dot r < 0
    · rw [if_pos hneg] at h
      have hrn : r.neg.lengthSq = 1 := by
        simp only [Quaternion.lengthSq, Quaternion.neg] at hr ⊢
        linarith
      have hdn : q.dot r.neg = -(q.dot r) := by
        simp only [Quaternion.dot, Quaternion.neg]
        ring
      right
      have e : r.neg = q := by
        by_cases hc : 1 ≤ |q.dot r.neg|
        · rw [hdn, abs_neg, abs_of_neg hneg] at hc
          exact quaternion_eq_of_dot q r.neg hq hrn (by rw [hdn]; exact hc)
        · rw [if_neg hc] at h
          exact blend_eq_self q r.neg t ht0 h
      rw [← e]
      simp [Quaternion.neg]
    · rw [if_neg hneg] at h
      left
      by_cases hc : 1 ≤ |q.dot r|
      · rw [abs_of_nonneg (not_lt.mp hneg)] at hc
        exact quaternion_eq_of_dot q r hq hr hc
      · rw [if_neg hc] at h
        exact blend_eq_self q r t ht0 h
  lookAt_self p := by
    simp [Three.rational, Quaternion.identity]

/-- The limb vectors of a `frame`. -/
theorem limbVecs_frame (a b c d e f : Landmark K) :
    limbVecs (frame a b c d e f) = some
      { lUpperVec := Vector3.subVectors (mpToVec c) (mpToVec a)
        lForeVec := Vector3.subVectors (mpToVec e) (mpToVec c)
        rUpperVec := Vector3.subVectors (mpToVec d) (mpToVec b)
        rForeVec := Vector3.subVectors (mpToVec f) (mpToVec d) } := by
  rfl

/-- The nodes of `ybot` have pairwise different `uuid`s. -/
theorem ybot_nodup : (ybot.traverse.map Object3D.uuid).Nodup := by
  decide

/-- C5 on a concrete asset: `ybot` without its left hand bone against the
complete `ybot`, on the degenerate frame, over `ℚ`. -/
theorem absent_bones_skipped_witness :
    (onPoseResults (Three.rational : Three ℚ)
      { (loadedScene : Scene ℚ) with boneMap := some (mapYBotBones ybotNoHandL) }
      ⟨some degenerateFrame⟩).threw = false ∧
    (∀ r b, mapYBotBones ybotNoHandL r = none → mapYBotBones ybot r = some b →
      (onPoseResults (Three.rational : Three ℚ)
        { (loadedScene : Scene ℚ) with boneMap := some (mapYBotBones ybotNoHandL) }
        ⟨some degenerateFrame⟩).scene.quaternion b.uuid
        = (loadedScene : Scene ℚ).quaternion b.uuid) ∧
    (∀ r b, mapYBotBones ybotNoHandL r = some b →
      (onPoseResults (Three.rational : Three ℚ)
        { (loadedScene : Scene ℚ) with boneMap := some (mapYBotBones ybotNoHandL) }
        ⟨some degenerateFrame⟩).scene.quaternion b.uuid
        = (onPoseResults (Three.rational : Three ℚ)
            { (loadedScene : Scene ℚ) with boneMap := some (mapYBotBones ybot) }
            ⟨some degenerateFrame⟩).scene.quaternion b.uuid) :=
  absent_bones_skipped Three.rational loadedScene degenerateFrame (mapYBotBones ybot)
    (mapYBotBones ybotNoHandL) (by decide) (mapYBotBones_distinct ybot ybot_nodup)
    (fun r => by cases r <;> first | exact Or.inl rfl | exact Or.inr rfl)

/-- The rotation `applyBoneLookAt` leaves on a bone that has a parent. -/
theorem applyBoneLookAt_apply (T : Three K) (rot : Nat → Quaternion K) (bone : Object3D)
    (p : Nat) (start end' : Vector3 K) (damp : K) (hp : bone.parent = some p) :
    Debug.applyBoneLookAt T rot (some bone) start end' damp bone.uuid =
      T.slerp (rot bone.uuid)
        ((T.lookAt start (start.add
            ⟨(T.normalize (Vector3.subVectors end' start)).x * -1,
             (T.normalize (Vector3.subVectors end' start)).y * -1,
             (T.normalize (Vector3.subVectors end' start)).z⟩)).multiply
          (T.getWorldQuaternion rot p).invert) damp := by
  simp [Debug.applyBoneLookAt, hp, setQuaternion]

/-- C6, as the code has it: a zero-length limb vector is not skipped.  When the
left wrist landmark coincides with the left elbow landmark, the left lower-limb
vector is zero and the left forearm bone, when mapped, is still blended with
factor 0.2 toward the rotation built from `angleTo` of the upper-limb vector and
the zero vector, as on any other frame; and `applyBoneLookAt(bone, start, start)`
on a bone with a parent still blends `bone.quaternion` toward the look-at
rotation of the normalised zero vector composed with the inverse of the parent's
world rotation. -/
theorem degenerate_vector_still_updates (T : Three K) (s : Scene K) (bm : BoneMap)
    (lm : List (Landmark K)) (b : Object3D)
    (hb : s.boneMap = some bm) (hd : DistinctBones bm) (hlm : 16 < lm.length)
    (hdeg : lm[L_WRIST]? = lm[L_ELBOW]?) (hf : bm .leftForearm = some b) :
    (∃ v, limbVecs lm = some v ∧ v.lForeVec = ⟨0, 0, 0⟩ ∧
      (onPoseResults T s ⟨some lm⟩).scene.quaternion b.uuid =
        T.slerp (s.quaternion b.uuid)
          (eulerToQuaternion T (clamp (T.angleTo v.lUpperVec ⟨0, 0, 0⟩ - 0.2) 0 2.0 * 0.8) 0 0)
          0.2) ∧
    (∀ (rot : Nat → Quaternion K) (bone : Object3D) (p : Nat) (start : Vector3 K) (damp : K),
      bone.parent = some p →
      Debug.applyBoneLookAt T rot (some bone) start start damp bone.uuid =
        T.slerp (rot bone.uuid)
          ((T.lookAt start (start.add
              ⟨(T.normalize ⟨0, 0, 0⟩).x * -1, (T.normalize ⟨0, 0, 0⟩).y * -1,
               (T.normalize ⟨0, 0, 0⟩).z⟩)).multiply
            (T.getWorldQuaternion rot p).invert) damp) := by
  constructor
  · obtain ⟨v, hv⟩ := limbVecs_isSome lm hlm
    have h13 : 13 < lm.length := by omega
    have h15 : 15 < lm.length := by omega
    have hz : v.lForeVec = ⟨0, 0, 0⟩ := by
      have e : lm[15] = lm[13] := by
        have := hdeg
        simp only [L_WRIST, L_ELBOW, List.getElem?_eq_getElem h13,
          List.getElem?_eq_getElem h15, Option.some.injEq] at this
        exact this
      have h11 : 11 < lm.length := by omega
      have h12 : 12 < lm.length := by omega
      have h14 : 14 < lm.length := by omega
      simp only [limbVecs, L_SHOULDER, R_SHOULDER, L_ELBOW, R_ELBOW, L_WRIST, R_WRIST,
        List.getElem?_eq_getElem hlm, List.getElem?_eq_getElem h11,
        List.getElem?_eq_getElem h12, List.getElem?_eq_getElem h13,
        List.getElem?_eq_getElem h14, List.getElem?_eq_getElem h15, Option.map_some',
        Option.bind_eq_bind, Option.some_bind, Option.pure_def, Option.some.injEq] at hv
      rw [← hv, e]
      simp [Vector3.subVectors]
    refine ⟨v, hv, hz, ?_⟩
    rw [onPoseResults_pose T s bm lm v hb hv]
    show applyBones T bm _ _ v b.uuid = _
    rw [applyBones_present T bm _ _ v hd .leftForearm b hf]
    simp only [boneUpdate, elbowAngle, hz]
  · intro rot bone p start damp hp
    rw [applyBoneLookAt_apply T rot bone p start start damp hp]
    simp [Vector3.subVectors]

/-- The claim of C6 fails on the code.  On the degenerate frame (left wrist on
the left elbow) with every bone of `ybot` at the identity, no library that meets
`Three.Lawful` leaves the left forearm's rotation as it was; and with the left
upper arm turned by half a turn, no such library makes
`applyBoneLookAt(forearm, start, start)` leave the forearm's rotation as it was. -/
theorem degenerate_vector_not_skipped :
    (¬ ∃ T : Three ℝ, T.Lawful ∧
      (onPoseResults T loadedScene ⟨some degenerateFrame⟩).scene.quaternion ybotForearmL.uuid
        = (loadedScene : Scene ℝ).quaternion ybotForearmL.uuid) ∧
    (¬ ∃ T : Three ℝ, T.Lawful ∧
      T.getWorldQuaternion halfTurnRotations 2 = ⟨1, 0, 0, 0⟩ ∧
      Debug.applyBoneLookAt T halfTurnRotations (Debug.bones ybot .leftForearm)
        ⟨0, 0, 0⟩ ⟨0, 0, 0⟩ 0.25 ybotForearmL.uuid = halfTurnRotations ybotForearmL.uuid) := by
  constructor
  · rintro ⟨T, hT, h⟩
    have hf : mapYBotBones ybot .leftForearm = some ybotForearmL := rfl
    rw [onPoseResults_pose T loadedScene (mapYBotBones ybot) degenerateFrame _ rfl
      (limbVecs_frame _ _ _ _ _ _)] at h
    dsimp only at h
    rw [applyBones_present T _ _ _ _ (mapYBotBones_distinct ybot ybot_nodup) .leftForearm
      ybotForearmL hf] at h
    simp only [boneUpdate, loadedScene, eulerToQuaternion, elbowAngle] at h
    obtain ⟨hlo, hhi⟩ := hT.angleTo_degenerate
      (Vector3.subVectors (mpToVec (⟨0.5, 0.7, 0⟩ : Landmark ℝ)) (mpToVec ⟨0.5, 0.5, 0⟩))
      (Vector3.subVectors (mpToVec (⟨0.5, 0.7, 0⟩ : Landmark ℝ)) (mpToVec ⟨0.5, 0.7, 0⟩))
      (by simp [Vector3.subVectors, Vector3.lengthSq])
    generalize T.angleTo
      (Vector3.subVectors (mpToVec (⟨0.5, 0.7, 0⟩ : Landmark ℝ)) (mpToVec ⟨0.5, 0.5, 0⟩))
      (Vector3.subVectors (mpToVec (⟨0.5, 0.7, 0⟩ : Landmark ℝ)) (mpToVec ⟨0.5, 0.7, 0⟩))
      = A at h hlo hhi
    have hc : clamp (A - 0.2) 0 2.0 = A - 0.2 := by
      unfold clamp
      rw [min_eq_right (by linarith), max_eq_right (by linarith)]
    rw [hc] at h
    obtain ⟨sn, cs, hsc, hs, hunit⟩ := hT.setFromEuler_pitch ((A - 0.2) * 0.8)
      (by linarith) (by linarith)
    rw [hsc] at h
    have hq : (Quaternion.identity : Quaternion ℝ).lengthSq = 1 := by
      simp [Quaternion.identity, Quaternion.lengthSq]
    have hr : (⟨sn, 0, 0, cs⟩ : Quaternion ℝ).lengthSq = 1 := by
      simp only [Quaternion.lengthSq]
      linarith
    rcases hT.slerp_moves _ _ 0.2 hq hr (by norm_num) (by norm_num) h with e | e
    · simp only [Quaternion.identity, Quaternion.mk.injEq] at e
      linarith [e.1]
    · simp only [Quaternion.identity, Quaternion.neg, Quaternion.mk.injEq] at e
      linarith [e.1]
  · rintro ⟨T, hT, hw, h⟩
    have hf : Debug.bones ybot .leftForearm = some ybotForearmL := rfl
    rw [hf, applyBoneLookAt_apply T _ ybotForearmL 2 _ _ _ rfl] at h
    have hz : Vector3.subVectors (⟨0, 0, 0⟩ : Vector3 ℝ) ⟨0, 0, 0⟩ = ⟨0, 0, 0⟩ := by
      simp [Vector3.subVectors]
    rw [hz, hT.normalize_zero] at h
    have ha : Vector3.add (⟨0, 0, 0⟩ : Vector3 ℝ) ⟨0 * -1, 0 * -1, 0⟩ = ⟨0, 0, 0⟩ := by
      simp [Vector3.add, Vector3.addVectors]
    rw [ha, hT.lookAt_self, hw] at h
    have hq : (halfTurnRotations ybotForearmL.uuid : Quaternion ℝ) = Quaternion.identity := rfl
    rw [hq] at h
    have h1 : (Quaternion.identity : Quaternion ℝ).lengthSq = 1 := by
      simp [Quaternion.identity, Quaternion.lengthSq]
    have h2 : ((Quaternion.identity : Quaternion ℝ).multiply
        (Quaternion.invert ⟨1, 0, 0, 0⟩)).lengthSq = 1 := by
      simp [Quaternion.identity, Quaternion.multiply, Quaternion.invert, Quaternion.lengthSq]
    rcases hT.slerp_moves _ _ 0.25 h1 h2 (by norm_num) (by norm_num) h with e | e
    · simp [Quaternion.identity, Quaternion.multiply, Quaternion.invert] at e
    · simp [Quaternion.identity, Quaternion.multiply, Quaternion.invert, Quaternion.neg] at e

/-- C6 as amended, on the degenerate frame over `ℚ` with `ybot` loaded. -/
theorem degenerate_vector_still_updates_witness :
    (∃ v, limbVecs (degenerateFrame : List (Landmark ℚ)) = some v ∧ v.lForeVec = ⟨0, 0, 0⟩ ∧
      (onPoseResults Three.rational (loadedScene : Scene ℚ)
          ⟨some degenerateFrame⟩).scene.quaternion ybotForearmL.uuid =
        (Three.rational : Three ℚ).slerp ((loadedScene : Scene ℚ).quaternion ybotForearmL.uuid)
          (eulerToQuaternion Three.rational
            (clamp ((Three.rational : Three ℚ).angleTo v.lUpperVec ⟨0, 0, 0⟩ - 0.2) 0 2.0 * 0.8)
            0 0) 0.2) :=
  (degenerate_vector_still_updates Three.rational loadedScene (mapYBotBones ybot)
    degenerateFrame ybotForearmL rfl (mapYBotBones_distinct ybot ybot_nodup) (by decide)
    rfl rfl).1

/-- The two ways of writing a clamp agree when the bounds are ordered. -/
theorem clamp_eq_min_max (v a b : K) (hab : a ≤ b) : clamp v a b = min b (max a v) := by
  unfold clamp
  rcases le_total v a with h1 | h1
  · rw [min_eq_right (le_trans h1 hab), max_eq_left h1, min_eq_right hab]
  · rcases le_total v b with h2 | h2
    · rw [min_eq_right h2, max_eq_right h1, min_eq_right h2]
    · rw [min_eq_left h2, max_eq_right hab, max_eq_right h1, min_eq_left h2]

/-- A clamp to a symmetric range commutes with negation. -/
theorem clamp_neg (v b : K) (hb : 0 ≤ b) : clamp (-v) (-b) b = -clamp v (-b) b := by
  have hab : -b ≤ b := by linarith
  rw [clamp_eq_min_max v (-b) b hab]
  unfold clamp
  rw [← max_neg_neg, ← min_neg_neg, neg_neg]

/-- The raw yaw changes sign with the horizontal component of the upper-limb vector. -/
theorem yaw_neg (u w : Vector3 K) (h : w.x = -u.x) : yaw w = -yaw u := by
  unfold yaw
  rw [h, neg_mul]
  exact clamp_neg _ _ (by norm_num)

/-- The raw pitch depends on the vertical component of the upper-limb vector only. -/
theorem pitch_congr (u w : Vector3 K) (h : w.y = u.y) : pitch w = pitch u := by
  unfold pitch
  rw [h]

/-- The smoothing state a frame leaves: the old one, or the old one blended
with the frame's limb vectors. -/
theorem onPoseResults_smoothing (T : Three K) (s : Scene K) (lm : List (Landmark K)) :
    (onPoseResults T s ⟨some lm⟩).scene.smoothing = s.smoothing ∨
    ∃ v, limbVecs lm = some v ∧ (onPoseResults T s ⟨some lm⟩).scene.smoothing
      = smooth s.smoothing v := by
  unfold onPoseResults
  cases hb : s.boneMap with
  | none => exact Or.inl rfl
  | some bm =>
    cases hv : limbVecs lm with
    | none =>
      left
      simp [hv]
    | some v =>
      right
      exact ⟨v, rfl, by simp [hv]⟩

/-- C3, as the code has it: when the right shoulder and elbow landmarks are the
mirror images (`x ↦ 1 - x`) of the left ones and both smoothing entries start at
zero, the Euler angles of the right upper-arm target after `onPoseResults` equal
those of the left one: same pitch and the same yaw, not the negated yaw (the
wrist landmarks play no part in these targets). -/
theorem mirrored_targets_equal (T : Three K) (s : Scene K) (lm : List (Landmark K))
    (h0 : s.smoothing = SmoothingRef.initial)
    (hS : lm[R_SHOULDER]? = (lm[L_SHOULDER]?).map mirror)
    (hE : lm[R_ELBOW]? = (lm[L_ELBOW]?).map mirror) :
    rightTarget (onPoseResults T s ⟨some lm⟩).scene.smoothing
      = leftTarget (onPoseResults T s ⟨some lm⟩).scene.smoothing := by
  rcases onPoseResults_smoothing T s lm with h | ⟨v, hv, h⟩
  · rw [h, h0]
    simp [rightTarget, leftTarget, SmoothingRef.initial]
  · rw [h, h0]
    have hx : v.rUpperVec.x = -v.lUpperVec.x ∧ v.rUpperVec.y = v.lUpperVec.y := by
      unfold limbVecs at hv
      rw [hS, hE] at hv
      cases h11 : lm[L_SHOULDER]? with
      | none => simp [h11] at hv
      | some a =>
        cases h13 : lm[L_ELBOW]? with
        | none => simp [h11, h13] at hv
        | some c =>
          cases h15 : lm[L_WRIST]? with
          | none => simp [h11, h13, h15] at hv
          | some e =>
            cases h16 : lm[R_WRIST]? with
            | none => simp [h11, h13, h15, h16] at hv
            | some f =>
              simp only [h11, h13, h15, h16, Option.map_some', Option.bind_eq_bind,
                Option.some_bind, Option.pure_def, Option.some.injEq] at hv
              rw [← hv]
              simp only [Vector3.subVectors, mpToVec, mirror]
              exact ⟨by ring, trivial⟩
    simp only [rightTarget, leftTarget, smooth, SmoothingRef.initial, Euler.mk.injEq,
      yaw_neg _ _ hx.1, pitch_congr _ _ hx.2]
    refine ⟨trivial, ?_, trivial⟩
    unfold lerp
    ring

/-- The claim of C3 fails on the code: `mirroredFrame` has mirrored arms and
`loadedScene` a zero smoothing state, yet for no library is the right target's
yaw after `onPoseResults` the negative of the left one (both are `0.0432`). -/
theorem mirrored_targets_not_negated :
    ((mirroredFrame : List (Landmark ℚ))[R_SHOULDER]?
        = ((mirroredFrame : List (Landmark ℚ))[L_SHOULDER]?).map mirror ∧
      (mirroredFrame : List (Landmark ℚ))[R_ELBOW]?
        = ((mirroredFrame : List (Landmark ℚ))[L_ELBOW]?).map mirror ∧
      (mirroredFrame : List (Landmark ℚ))[R_WRIST]?
        = ((mirroredFrame : List (Landmark ℚ))[L_WRIST]?).map mirror ∧
      (loadedScene : Scene ℚ).smoothing = SmoothingRef.initial) ∧
    ¬ ∃ T : Three ℚ,
      (rightTarget (onPoseResults T loadedScene ⟨some mirroredFrame⟩).scene.smoothing).y
        = -(leftTarget (onPoseResults T loadedScene ⟨some mirroredFrame⟩).scene.smoothing).y := by
  refine ⟨⟨?_, ?_, ?_, rfl⟩, ?_⟩
  · simp [mirroredFrame, frame, R_SHOULDER, L_SHOULDER, mirror]
    norm_num
  · simp [mirroredFrame, frame, R_ELBOW, L_ELBOW, mirror]
    norm_num
  · simp [mirroredFrame, frame, R_WRIST, L_WRIST, mirror]
    norm_num
  · rintro ⟨T, h⟩
    rw [onPoseResults_pose T loadedScene (mapYBotBones ybot) mirroredFrame _ rfl
      (limbVecs_frame _ _ _ _ _ _)] at h
    simp only [rightTarget, leftTarget, smooth, loadedScene, SmoothingRef.initial, yaw, clamp,
      lerp, mpToVec, Vector3.subVectors, YAW_SCALE] at h
    norm_num at h

/-- C3 as amended, on `mirroredFrame` over `ℚ` with `ybot` loaded. -/
theorem mirrored_targets_equal_witness :
    rightTarget (onPoseResults (Three.rational : Three ℚ) loadedScene
        ⟨some mirroredFrame⟩).scene.smoothing
      = leftTarget (onPoseResults (Three.rational : Three ℚ) loadedScene
        ⟨some mirroredFrame⟩).scene.smoothing :=
  mirrored_targets_equal Three.rational loadedScene mirroredFrame rfl
    (by simp [mirroredFrame, frame, R_SHOULDER, L_SHOULDER, mirror]; norm_num)
    (by simp [mirroredFrame, frame, R_ELBOW, L_ELBOW, mirror]; norm_num)

/-- The raw pitch of an upper-limb vector that points up is negative. -/
theorem pitch_neg_of_pos (u : Vector3 K) (h : 0 < u.y) : pitch u < 0 := by
  unfold pitch clamp PITCH_SCALE
  apply max_lt (by norm_num)
  apply lt_of_le_of_lt (min_le_right _ _)
  have : 0 < u.y * 1.6 := mul_pos h (by norm_num)
  linarith

/-- C8 on the code: the left pitch of a raised arm is negative, not positive.
For every upper-limb vector with a positive vertical component (so for every
elbow landmark above the shoulder landmark in the image) the raw pitch is
strictly negative, and it is the lower bound `-1.3` once the gain `1.6` times
the vertical component exceeds `1.3`; for the vector `(0, 0.3, 0)` it is
`-0.48`, and `onPoseResults` on `raisedFrame` from the zero smoothing state
leaves the smoothed left pitch at `0.18 * -0.48 = -0.0864`. -/
theorem raised_arm_pitch_negative (T : Three K) (upperVec : Vector3 K)
    (shoulder elbow : Landmark K) :
    (0 < upperVec.y → pitch upperVec < 0) ∧
    (1.3 < 1.6 * upperVec.y → pitch upperVec = -1.3) ∧
    (elbow.y < shoulder.y →
      pitch (Vector3.subVectors (mpToVec elbow) (mpToVec shoulder)) < 0) ∧
    pitch (⟨0, 0.3, 0⟩ : Vector3 K) = -0.48 ∧
    (∃ v, limbVecs (raisedFrame : List (Landmark K)) = some v ∧ v.lUpperVec = ⟨0, 0.3, 0⟩ ∧
      (onPoseResults T loadedScene ⟨some raisedFrame⟩).scene.smoothing.left.y = -0.0864) := by
  have h48 : pitch (⟨0, 0.3, 0⟩ : Vector3 K) = -0.48 := by
    unfold pitch clamp PITCH_SCALE
    rw [min_eq_right (by norm_num), max_eq_right (by norm_num)]
    norm_num
  have hup : Vector3.subVectors (mpToVec (⟨0.5, 0.3, 0⟩ : Landmark K)) (mpToVec ⟨0.5, 0.5, 0⟩)
      = ⟨0, 0.3, 0⟩ := by
    simp only [Vector3.subVectors, mpToVec, Vector3.mk.injEq]
    refine ⟨by norm_num, by norm_num, by norm_num⟩
  refine ⟨pitch_neg_of_pos upperVec, ?_, ?_, h48, ?_⟩
  · intro h
    unfold pitch clamp PITCH_SCALE
    rw [max_eq_left]
    apply le_trans (min_le_right _ _)
    linarith
  · intro h
    apply pitch_neg_of_pos
    simp only [Vector3.subVectors, mpToVec]
    linarith
  · refine ⟨_, limbVecs_frame _ _ _ _ _ _, hup, ?_⟩
    rw [onPoseResults_pose T loadedScene (mapYBotBones ybot) raisedFrame _ rfl
      (limbVecs_frame _ _ _ _ _ _)]
    simp only [smooth, loadedScene, SmoothingRef.initial, hup, h48, lerp]
    norm_num

/-- The left entry of the smoothing state after `n` blends with the same limb
vectors: each scalar follows its own iterated `lerp`. -/
theorem smooth_iterate_left (v : LimbVecs K) (sm : SmoothingRef K) (n : ℕ) :
    ((fun m => smooth m v)^[n] sm).left.x
        = (fun x => lerp x (yaw v.lUpperVec) 0.18)^[n] sm.left.x ∧
    ((fun m => smooth m v)^[n] sm).left.y
        = (fun y => lerp y (pitch v.lUpperVec) 0.18)^[n] sm.left.y := by
  induction n with
  | zero => exact ⟨rfl, rfl⟩
  | succ n ih =>
    rw [Function.iterate_succ_apply', Function.iterate_succ_apply',
      Function.iterate_succ_apply', ← ih.1, ← ih.2]
    exact ⟨rfl, rfl⟩

/-- The smoothing state after the same frame with landmarks has been delivered
`n` times to a loaded model. -/
theorem runFrames_replicate (T : Three K) (bm : BoneMap) (lm : List (Landmark K))
    (v : LimbVecs K) (hv : limbVecs lm = some v) (n : ℕ) (s : Scene K)
    (hb : s.boneMap = some bm) :
    (runFrames T s (List.replicate n ⟨some lm⟩)).smoothing
      = (fun m => smooth m v)^[n] s.smoothing := by
  induction n generalizing s with
  | zero => rfl
  | succ n ih =>
    rw [List.replicate_succ, runFrames, Function.iterate_succ_apply,
      onPoseResults_pose T s bm lm v hb hv]
    exact ih _ rfl

/-- From the zero smoothing state, `n` deliveries of the same frame leave the
left smoothed yaw and pitch at the raw value times `1 - 0.82^n`. -/
theorem runFrames_replicate_left (T : Three K) (bm : BoneMap) (lm : List (Landmark K))
    (v : LimbVecs K) (hv : limbVecs lm = some v) (n : ℕ) (s : Scene K)
    (hb : s.boneMap = some bm) (h0 : s.smoothing = SmoothingRef.initial) :
    (runFrames T s (List.replicate n ⟨some lm⟩)).smoothing.left.x
        = yaw v.lUpperVec * (1 - 0.82 ^ n) ∧
    (runFrames T s (List.replicate n ⟨some lm⟩)).smoothing.left.y
        = pitch v.lUpperVec * (1 - 0.82 ^ n) := by
  rw [runFrames_replicate T bm lm v hv n s hb, h0]
  obtain ⟨hx, hy⟩ := smooth_iterate_left v (SmoothingRef.initial : SmoothingRef K) n
  rw [hx, hy]
  have ex := lerp_iterate_sub (yaw v.lUpperVec) (0 : K) n
  have ey := lerp_iterate_sub (pitch v.lUpperVec) (0 : K) n
  simp only [SmoothingRef.initial]
  constructor <;> linarith

/-- The geometric factor stays in `[0, 1)`. -/
theorem one_sub_pow_mem (n : ℕ) : (0 : K) ≤ 1 - 0.82 ^ n ∧ (1 : K) - 0.82 ^ n < 1 := by
  have h0 : (0 : K) < 0.82 ^ n := pow_pos (by norm_num) n
  have h1 : (0.82 : K) ^ n ≤ 1 := pow_le_one₀ (by norm_num) (by norm_num)
  constructor <;> linarith

/-- A sequence `c * (1 - 0.82^n)` comes within any `ε > 0` of `c`. -/
theorem tends_to_gain [Archimedean K] (c : K) (hc0 : 0 ≤ c) (hc1 : c ≤ 1) (ε : K) (hε : 0 < ε) :
    ∃ N : ℕ, ∀ n : ℕ, N ≤ n → |c * (1 - 0.82 ^ n) - c| < ε := by
  obtain ⟨N, hN⟩ := exists_pow_lt_of_lt_one hε (show (0.82 : K) < 1 by norm_num)
  refine ⟨N, fun n hn => ?_⟩
  have hle : (0.82 : K) ^ n ≤ 0.82 ^ N :=
    pow_le_pow_of_le_one (by norm_num) (by norm_num) hn
  have hp : (0 : K) ≤ 0.82 ^ n := pow_nonneg (by norm_num) n
  have e : c * (1 - 0.82 ^ n) - c = -(c * 0.82 ^ n) := by ring
  rw [e, abs_neg, abs_of_nonneg (mul_nonneg hc0 hp)]
  calc c * 0.82 ^ n ≤ 1 * 0.82 ^ n := mul_le_mul_of_nonneg_right hc1 hp
    _ = 0.82 ^ n := one_mul _
    _ ≤ 0.82 ^ N := hle
    _ < ε := hN

/-- The raw pitch of the upper-limb vector `(0, -0.3, 0)`. -/
theorem pitch_hanging : pitch (⟨0, -0.3, 0⟩ : Vector3 K) = 0.48 := by
  unfold pitch clamp PITCH_SCALE
  rw [min_eq_right (by norm_num), max_eq_right (by norm_num)]
  norm_num

/-- The raw pitch of the upper-limb vector `(0, 0.45, 0)`. -/
theorem pitch_rawHanging : pitch (⟨0, 0.45, 0⟩ : Vector3 K) = -0.72 := by
  unfold pitch clamp PITCH_SCALE
  rw [min_eq_right (by norm_num), max_eq_right (by norm_num)]
  norm_num

/-- The raw yaw of a vertical upper-limb vector. -/
theorem yaw_vertical (a : K) : yaw (⟨0, a, 0⟩ : Vector3 K) = 0 := by
  unfold yaw clamp YAW_SCALE
  rw [zero_mul, min_eq_right (by norm_num), max_eq_right (by norm_num)]

/-- The limb vectors of `hangingFrame`: both left vectors are `(0, -0.3, 0)`. -/
theorem limbVecs_hangingFrame (rS rE rW : Landmark K) :
    limbVecs (hangingFrame rS rE rW) = some
      { lUpperVec := ⟨0, -0.3, 0⟩
        lForeVec := ⟨0, -0.3, 0⟩
        rUpperVec := Vector3.subVectors (mpToVec rE) (mpToVec rS)
        rForeVec := Vector3.subVectors (mpToVec rW) (mpToVec rE) } := by
  have ua : Vector3.subVectors (mpToVec (⟨0.5, 0.7, 0⟩ : Landmark K)) (mpToVec ⟨0.5, 0.5, 0⟩)
      = ⟨0, -0.3, 0⟩ := by
    simp only [Vector3.subVectors, mpToVec, Vector3.mk.injEq]
    refine ⟨by norm_num, by norm_num, by norm_num⟩
  have fa : Vector3.subVectors (mpToVec (⟨0.5, 0.9, 0⟩ : Landmark K)) (mpToVec ⟨0.5, 0.7, 0⟩)
      = ⟨0, -0.3, 0⟩ := by
    simp only [Vector3.subVectors, mpToVec, Vector3.mk.injEq]
    refine ⟨by norm_num, by norm_num, by norm_num⟩
  rw [hangingFrame, limbVecs_frame, ua, fa]

/-- The limb vectors of `rawHangingFrame`: both left vectors are `(0, 0.45, 0)`. -/
theorem limbVecs_rawHangingFrame (rS rE rW : Landmark K) :
    limbVecs (rawHangingFrame rS rE rW) = some
      { lUpperVec := ⟨0, 0.45, 0⟩
        lForeVec := ⟨0, 0.45, 0⟩
        rUpperVec := Vector3.subVectors (mpToVec rE) (mpToVec rS)
        rForeVec := Vector3.subVectors (mpToVec rW) (mpToVec rE) } := by
  have ub : Vector3.subVectors (mpToVec (⟨0, -0.3, 0⟩ : Landmark K)) (mpToVec ⟨0, 0, 0⟩)
      = ⟨0, 0.45, 0⟩ := by
    simp only [Vector3.subVectors, mpToVec, Vector3.mk.injEq]
    refine ⟨by norm_num, by norm_num, by norm_num⟩
  have fb : Vector3.subVectors (mpToVec (⟨0, -0.6, 0⟩ : Landmark K)) (mpToVec ⟨0, -0.3, 0⟩)
      = ⟨0, 0.45, 0⟩ := by
    simp only [Vector3.subVectors, mpToVec, Vector3.mk.injEq]
    refine ⟨by norm_num, by norm_num, by norm_num⟩
  rw [rawHangingFrame, limbVecs_frame, ub, fb]

/-- The left smoothed yaw and pitch after `n` deliveries of `hangingFrame`. -/
theorem hangingFrame_left (T : Three K) (s : Scene K) (bm : BoneMap) (rS rE rW : Landmark K)
    (hb : s.boneMap = some bm) (h0 : s.smoothing = SmoothingRef.initial) (n : ℕ) :
    (runFrames T s (List.replicate n ⟨some (hangingFrame rS rE rW)⟩)).smoothing.left.x = 0 ∧
    (runFrames T s (List.replicate n ⟨some (hangingFrame rS rE rW)⟩)).smoothing.left.y
      = 0.48 * (1 - 0.82 ^ n) := by
  obtain ⟨hx, hy⟩ :=
    runFrames_replicate_left T bm _ _ (limbVecs_hangingFrame rS rE rW) n s hb h0
  exact ⟨by rw [hx, yaw_vertical, zero_mul], by rw [hy, pitch_hanging]⟩

/-- The left smoothed yaw and pitch after `n` deliveries of `rawHangingFrame`. -/
theorem rawHangingFrame_left (T : Three K) (s : Scene K) (bm : BoneMap)
    (rS rE rW : Landmark K) (hb : s.boneMap = some bm)
    (h0 : s.smoothing = SmoothingRef.initial) (n : ℕ) :
    (runFrames T s (List.replicate n ⟨some (rawHangingFrame rS rE rW)⟩)).smoothing.left.x
      = 0 ∧
    (runFrames T s (List.replicate n ⟨some (rawHangingFrame rS rE rW)⟩)).smoothing.left.y
      = -(0.72 * (1 - 0.82 ^ n)) := by
  obtain ⟨hx, hy⟩ :=
    runFrames_replicate_left T bm _ _ (limbVecs_rawHangingFrame rS rE rW) n s hb h0
  refine ⟨by rw [hx, yaw_vertical, zero_mul], ?_⟩
  rw [hy, pitch_rawHanging]
  ring

/-- C7, as the code has it.  The landmarks of `hangingFrame` go to the points
`(0, 0, 0)`, `(0, -0.3, 0)`, `(0, -0.6, 0)` under `mpToVec`, those of
`rawHangingFrame` are these points themselves.  Fed again and again to a loaded
model from the zero smoothing state, with a library whose `angleTo` of a nonzero
vector and itself is `0`: the elbow-bend angle is `0` on every frame and the left
smoothed yaw is `0` after every frame, but the left smoothed pitch does not go
to zero: after `n` frames its magnitude is `0.48 * (1 - 0.82^n)` for
`hangingFrame` and `0.72 * (1 - 0.82^n)` for `rawHangingFrame`, which come
within any `ε > 0` of `0.48` and of `0.72`. -/
theorem hanging_arm_limits [Archimedean K] (T : Three K) (s : Scene K) (bm : BoneMap)
    (rS rE rW : Landmark K)
    (hT : ∀ u : Vector3 K, u.lengthSq ≠ 0 → T.angleTo u u = 0)
    (hb : s.boneMap = some bm) (h0 : s.smoothing = SmoothingRef.initial) :
    ((mpToVec (⟨0.5, 0.5, 0⟩ : Landmark K) = ⟨0, 0, 0⟩ ∧
        mpToVec (⟨0.5, 0.7, 0⟩ : Landmark K) = ⟨0, -0.3, 0⟩ ∧
        mpToVec (⟨0.5, 0.9, 0⟩ : Landmark K) = ⟨0, -0.6, 0⟩) ∧
      (∃ v, limbVecs (hangingFrame rS rE rW) = some v ∧
        elbowAngle T v.lUpperVec v.lForeVec = 0) ∧
      (∀ n : ℕ,
        (runFrames T s (List.replicate n ⟨some (hangingFrame rS rE rW)⟩)).smoothing.left.x = 0 ∧
        |(runFrames T s (List.replicate n ⟨some (hangingFrame rS rE rW)⟩)).smoothing.left.y|
          = 0.48 * (1 - 0.82 ^ n)) ∧
      (∀ ε : K, 0 < ε → ∃ N : ℕ, ∀ n : ℕ, N ≤ n →
        |abs (runFrames T s (List.replicate n ⟨some (hangingFrame rS rE rW)⟩)).smoothing.left.y
          - 0.48| < ε)) ∧
    ((∃ v, limbVecs (rawHangingFrame rS rE rW) = some v ∧
        elbowAngle T v.lUpperVec v.lForeVec = 0) ∧
      (∀ n : ℕ,
        (runFrames T s (List.replicate n ⟨some (rawHangingFrame rS rE rW)⟩)).smoothing.left.x
          = 0 ∧
        |(runFrames T s (List.replicate n ⟨some (rawHangingFrame rS rE rW)⟩)).smoothing.left.y|
          = 0.72 * (1 - 0.82 ^ n)) ∧
      (∀ ε : K, 0 < ε → ∃ N : ℕ, ∀ n : ℕ, N ≤ n →
        |abs (runFrames T s (List.replicate n ⟨some (rawHangingFrame rS rE rW)⟩)).smoothing.left.y
          - 0.72| < ε)) := by
  have m1 : mpToVec (⟨0.5, 0.5, 0⟩ : Landmark K) = ⟨0, 0, 0⟩ := by
    simp only [mpToVec, Vector3.mk.injEq]
    refine ⟨by norm_num, by norm_num, by norm_num⟩
  have m2 : mpToVec (⟨0.5, 0.7, 0⟩ : Landmark K) = ⟨0, -0.3, 0⟩ := by
    simp only [mpToVec, Vector3.mk.injEq]
    refine ⟨by norm_num, by norm_num, by norm_num⟩
  have m3 : mpToVec (⟨0.5, 0.9, 0⟩ : Landmark K) = ⟨0, -0.6, 0⟩ := by
    simp only [mpToVec, Vector3.mk.injEq]
    refine ⟨by norm_num, by norm_num, by norm_num⟩
  have bend : ∀ a : K, a ≠ 0 → elbowAngle T (⟨0, a, 0⟩ : Vector3 K) ⟨0, a, 0⟩ = 0 := by
    intro a ha
    unfold elbowAngle clamp
    rw [hT _ (by simpa [Vector3.lengthSq] using ha), min_eq_right (by norm_num),
      max_eq_left (by norm_num)]
  have absa : ∀ n : ℕ,
      |(runFrames T s (List.replicate n ⟨some (hangingFrame rS rE rW)⟩)).smoothing.left.y|
        = 0.48 * (1 - 0.82 ^ n) := by
    intro n
    rw [(hangingFrame_left T s bm rS rE rW hb h0 n).2,
      abs_of_nonneg (mul_nonneg (by norm_num) (one_sub_pow_mem n).1)]
  have absb : ∀ n : ℕ,
      |(runFrames T s (List.replicate n ⟨some (rawHangingFrame rS rE rW)⟩)).smoothing.left.y|
        = 0.72 * (1 - 0.82 ^ n) := by
    intro n
    rw [(rawHangingFrame_left T s bm rS rE rW hb h0 n).2, abs_neg,
      abs_of_nonneg (mul_nonneg (by norm_num) (one_sub_pow_mem n).1)]
  refine ⟨⟨⟨m1, m2, m3⟩, ⟨_, limbVecs_hangingFrame rS rE rW, bend _ (by norm_num)⟩,
      fun n => ⟨(hangingFrame_left T s bm rS rE rW hb h0 n).1, absa n⟩, ?_⟩,
    ⟨_, limbVecs_rawHangingFrame rS rE rW, bend _ (by norm_num)⟩,
    fun n => ⟨(rawHangingFrame_left T s bm rS rE rW hb h0 n).1, absb n⟩, ?_⟩
  · intro ε hε
    obtain ⟨N, hN⟩ := tends_to_gain (0.48 : K) (by norm_num) (by norm_num) ε hε
    exact ⟨N, fun n hn => by rw [absa n]; exact hN n hn⟩
  · intro ε hε
    obtain ⟨N, hN⟩ := tends_to_gain (0.72 : K) (by norm_num) (by norm_num) ε hε
    exact ⟨N, fun n hn => by rw [absb n]; exact hN n hn⟩

/-- The claim of C7 fails on the code: from the zero smoothing state of
`loadedScene`, whatever the library, the left smoothed pitch does not end up
within `0.4` of zero, neither for `hangingFrame` nor for `rawHangingFrame`. -/
theorem hanging_arm_pitch_not_near_zero :
    (¬ ∃ T : Three ℚ, ∃ N : ℕ, ∀ n : ℕ, N ≤ n →
      |(runFrames T loadedScene (List.replicate n ⟨some
          (hangingFrame ⟨0.4, 0.5, 0⟩ ⟨0.4, 0.7, 0⟩ ⟨0.4, 0.9, 0⟩)⟩)).smoothing.left.y| < 0.4) ∧
    (¬ ∃ T : Three ℚ, ∃ N : ℕ, ∀ n : ℕ, N ≤ n →
      |(runFrames T loadedScene (List.replicate n ⟨some
          (rawHangingFrame ⟨0.4, 0.5, 0⟩ ⟨0.4, 0.7, 0⟩ ⟨0.4, 0.9, 0⟩)⟩)).smoothing.left.y|
        < 0.4) := by
  have hpow : ∀ n : ℕ, 11 ≤ n → (0.82 : ℚ) ^ n ≤ 0.12 := by
    intro n hn
    calc (0.82 : ℚ) ^ n ≤ 0.82 ^ 11 := pow_le_pow_of_le_one (by norm_num) (by norm_num) hn
      _ ≤ 0.12 := by norm_num
  constructor
  · rintro ⟨T, N, h⟩
    have h1 := h (max N 11) (le_max_left _ _)
    rw [(hangingFrame_left T loadedScene (mapYBotBones ybot) _ _ _ rfl rfl _).2] at h1
    have h2 := hpow (max N 11) (le_max_right _ _)
    have h3 := (abs_lt.mp h1).2
    linarith
  · rintro ⟨T, N, h⟩
    have h1 := h (max N 11) (le_max_left _ _)
    rw [(rawHangingFrame_left T loadedScene (mapYBotBones ybot) _ _ _ rfl rfl _).2] at h1
    have h2 := hpow (max N 11) (le_max_right _ _)
    have h3 := (abs_lt.mp h1).1
    linarith

/-- C7 as amended, over `ℚ` with `ybot` loaded and the rational library, whose
`angleTo` of a nonzero vector and itself is `0`. -/
theorem hanging_arm_limits_witness :
    (∃ v, limbVecs (hangingFrame (⟨0.4, 0.5, 0⟩ : Landmark ℚ) ⟨0.4, 0.7, 0⟩ ⟨0.4, 0.9, 0⟩)
        = some v ∧ elbowAngle Three.rational v.lUpperVec v.lForeVec = 0) ∧
    (∀ n : ℕ,
      (runFrames (Three.rational : Three ℚ) loadedScene (List.replicate n ⟨some
        (hangingFrame ⟨0.4, 0.5, 0⟩ ⟨0.4, 0.7, 0⟩ ⟨0.4, 0.9, 0⟩)⟩)).smoothing.left.x = 0 ∧
      |(runFrames (Three.rational : Three ℚ) loadedScene (List.replicate n ⟨some
        (hangingFrame ⟨0.4, 0.5, 0⟩ ⟨0.4, 0.7, 0⟩ ⟨0.4, 0.9, 0⟩)⟩)).smoothing.left.y|
        = 0.48 * (1 - 0.82 ^ n)) :=
  ⟨(hanging_arm_limits Three.rational loadedScene (mapYBotBones ybot) ⟨0.4, 0.5, 0⟩
      ⟨0.4, 0.7, 0⟩ ⟨0.4, 0.9, 0⟩ rational_lawful.angleTo_self rfl rfl).1.2.1,
    (hanging_arm_limits Three.rational loadedScene (mapYBotBones ybot) ⟨0.4, 0.5, 0⟩
      ⟨0.4, 0.7, 0⟩ ⟨0.4, 0.9, 0⟩ rational_lawful.angleTo_self rfl rfl).1.2.2.1⟩

/-- The scene of the look-at counterexample of C6 is possible: some library
that meets `Three.Lawful` gives the turned upper arm the world rotation
`(1, 0, 0, 0)`. -/
theorem lawful_halfTurn_exists :
    ∃ T : Three ℝ, T.Lawful ∧ T.getWorldQuaternion halfTurnRotations 2 = ⟨1, 0, 0, 0⟩ :=
  ⟨Three.rational, rational_lawful, rfl⟩

/-- Running `cleanup` on the state a `cleanup` left changes nothing. -/
theorem cleanup_cleanup (p : Pipeline K) : (cleanup (cleanup p).scene).scene = (cleanup p).scene := by
  obtain ⟨sc, id, pend, video, stops, rl⟩ := p
  rcases video with _ | ⟨_ | ⟨_ | ts⟩⟩ <;>
    simp [cleanup, List.filter_filter]

/-- The `stop()` calls after `cleanup`: the earlier ones, then one for each
track `getTracks()` of the attached stream returns. -/
theorem cleanup_stopCalls (p : Pipeline K) :
    (cleanup p).scene.stopCalls = p.stopCalls ++ attachedTracks p.video := by
  obtain ⟨sc, id, pend, video, stops, rl⟩ := p
  rcases video with _ | ⟨_ | ⟨_ | ts⟩⟩ <;>
    simp [cleanup, attachedTracks]

/-- The teardown `cleanup` of the angle pipeline is idempotent: invoked twice in
succession it raises nothing, the first invocation calls `stop()` once on each
track the attached stream returns from `getTracks()`, the second stops nothing,
so each attached track (the tracks being distinct) is stopped exactly once in
total, and the state after the second invocation equals the state after the
first.  The teardown of the look-at pipeline, the empty function, invoked twice
raises nothing and leaves the state as it was. -/
theorem teardown_idempotent (p : Pipeline K) (d : Debug.Pipeline K) :
    ((cleanup p).threw = false ∧ (cleanup (cleanup p).scene).threw = false) ∧
    (cleanup p).scene.stopCalls = p.stopCalls ++ attachedTracks p.video ∧
    (cleanup (cleanup p).scene).scene.stopCalls = (cleanup p).scene.stopCalls ∧
    (∀ t, (attachedTracks p.video).Nodup → t ∈ attachedTracks p.video →
      (cleanup (cleanup p).scene).scene.stopCalls.count t = p.stopCalls.count t + 1) ∧
    (cleanup (cleanup p).scene).scene = (cleanup p).scene ∧
    ((Debug.teardown d).threw = false ∧
      (Debug.teardown (Debug.teardown d).scene).threw = false ∧
      (Debug.teardown (Debug.teardown d).scene).scene = (Debug.teardown d).scene ∧
      (Debug.teardown (Debug.teardown d).scene).scene = d) := by
  refine ⟨⟨rfl, rfl⟩, cleanup_stopCalls p, ?_, ?_, cleanup_cleanup p, rfl, rfl, rfl, rfl⟩
  · rw [cleanup_cleanup]
  · intro t hn ht
    rw [cleanup_cleanup, cleanup_stopCalls, List.count_append,
      List.count_eq_one_of_mem hn ht]

/-- C11 on the code of the look-at pipeline: its teardown (`debug.jsx` line 270)
never stops the camera.  With one capture track attached to the video element,
two teardowns in succession leave it stopped zero times, not once as the claim
says and as `cleanup` of the angle pipeline does. -/
theorem lookat_teardown_stops_no_track :
    7 ∈ attachedTracks (Debug.startedPipeline : Debug.Pipeline ℚ).video ∧
    (Debug.teardown (Debug.teardown
      (Debug.startedPipeline : Debug.Pipeline ℚ)).scene).scene.stopCalls.count 7 = 0 ∧
    ¬ ((Debug.teardown (Debug.teardown
        (Debug.startedPipeline : Debug.Pipeline ℚ)).scene).scene.stopCalls.count 7
      = (Debug.startedPipeline : Debug.Pipeline ℚ).stopCalls.count 7 + 1) := by
  refine ⟨?_, ?_, ?_⟩
  · simp [Debug.startedPipeline, attachedTracks]
  · simp [Debug.startedPipeline, Debug.teardown]
  · simp [Debug.startedPipeline, Debug.teardown]

/-- C12, as the code has it: `cleanup` neither detaches nor gates the pose
handler and changes no part of the scene (bone map, rotations, smoothing state,
status), so a pose result delivered after `cleanup` is handled exactly as it
would have been without it. -/
theorem stale_results_still_handled (T : Three K) (p : Pipeline K) (r : Results K) :
    (cleanup p).scene.scene = p.scene ∧
    onPoseResults T (cleanup p).scene.scene r = onPoseResults T p.scene r := by
  have h : (cleanup p).scene.scene = p.scene := by
    obtain ⟨sc, id, pend, video, stops, rl⟩ := p
    rcases video with _ | ⟨_ | ⟨_ | ts⟩⟩ <;> simp [cleanup]
  exact ⟨h, by rw [h]⟩

/-- The claim of C12 fails on the code: after `cleanup` of `startedPipeline`, for
no library does `onPoseResults` on `raisedFrame` leave the smoothing state as it
was (the left smoothed pitch goes from `0` to `-0.0864`). -/
theorem stale_results_not_discarded :
    ¬ ∃ T : Three ℚ,
      (onPoseResults T (cleanup (startedPipeline : Pipeline ℚ)).scene.scene
          ⟨some raisedFrame⟩).scene.smoothing
        = (cleanup (startedPipeline : Pipeline ℚ)).scene.scene.smoothing := by
  rintro ⟨T, h⟩
  have hc : (cleanup (startedPipeline : Pipeline ℚ)).scene.scene = loadedScene := rfl
  rw [hc, onPoseResults_pose T loadedScene (mapYBotBones ybot) raisedFrame _ rfl
    (limbVecs_frame _ _ _ _ _ _)] at h
  have hy := congrArg (fun m : SmoothingRef ℚ => m.left.y) h
  simp only [smooth, loadedScene, SmoothingRef.initial, pitch, clamp, lerp, mpToVec,
    Vector3.subVectors, PITCH_SCALE] at hy
  norm_num at hy

/-- C13, as the code has it: the two pipelines mirror x in opposite ways.  For
every landmark the x output of `mpToVec` is `-1.5 * (0.5 - x)` and that of
`normalize` is `2 * (0.5 - x)`, so they have opposite signs
(`normalize(l).x = -(4/3) * mpToVec(l).x`), while the y and z outputs are the
positive multiples `1.5` and `2` of `0.5 - y` and of `-z`. -/
theorem mirror_conventions (l : Landmark K) :
    ((mpToVec l).x = -1.5 * (0.5 - l.x) ∧ (Debug.normalize l).x = 2 * (0.5 - l.x) ∧
      (Debug.normalize l).x = -(4 / 3) * (mpToVec l).x) ∧
    ((mpToVec l).y = 1.5 * (0.5 - l.y) ∧ (Debug.normalize l).y = 2 * (0.5 - l.y)) ∧
    ((mpToVec l).z = 1.5 * -l.z ∧ (Debug.normalize l).z = 2 * -l.z) := by
  simp only [mpToVec, Debug.normalize]
  refine ⟨⟨by ring, by ring, by ring⟩, ⟨by ring, by ring⟩, by ring, by ring⟩

/-- The claim of C13 fails on the code: for the landmark `(0.7, 0.5, 0)` the x
output of `mpToVec` is `0.3` and that of `normalize` is `-0.4`, and the former
is no positive multiple of `0.5 - x`. -/
theorem mirror_conventions_differ :
    (mpToVec (⟨0.7, 0.5, 0⟩ : Landmark ℚ)).x = 0.3 ∧
    (Debug.normalize (⟨0.7, 0.5, 0⟩ : Landmark ℚ)).x = -0.4 ∧
    ¬ ∃ c : ℚ, 0 < c ∧ (mpToVec (⟨0.7, 0.5, 0⟩ : Landmark ℚ)).x = c * (0.5 - 0.7) := by
  refine ⟨by norm_num [mpToVec], by norm_num [Debug.normalize], ?_⟩
  rintro ⟨c, hc, h⟩
  norm_num [mpToVec] at h
  linarith

/-- The rotation `applyBoneLookAt` leaves on an object other than the bone. -/
theorem applyBoneLookAt_other (T : Three K) (rot : Nat → Quaternion K) (bone : Option Object3D)
    (start end' : Vector3 K) (damp : K) (u : Nat)
    (h : ∀ b, bone = some b → b.uuid ≠ u) :
    Debug.applyBoneLookAt T rot bone start end' damp u = rot u := by
  cases bone with
  | none => rfl
  | some b =>
    have hb : u ≠ b.uuid := fun e => h b rfl e.symm
    cases hp : b.parent with
    | none => simp [Debug.applyBoneLookAt, hp]
    | some p => simp [Debug.applyBoneLookAt, hp, setQuaternion, Function.update_apply, hb]

/-- C14, as the code has it: `updateArm` animates an arm only when its shoulder,
upper-arm and forearm bones are all present; when one of the three is absent it
returns at once and no rotation changes.  Only the hand bone is optional: with
the other three present, every object other than the hand is left with the same
rotation whether the hand bone is present or not. -/
theorem updateArm_requires_three_bones (T : Three K) (rot : Nat → Quaternion K)
    (shoulderPos elbowPos wristPos : Vector3 K)
    (shoulderBone upperArmBone forearmBone handBone : Option Object3D)
    (s a f h : Object3D) :
    Debug.updateArm T rot shoulderPos elbowPos wristPos none upperArmBone forearmBone handBone
      = rot ∧
    Debug.updateArm T rot shoulderPos elbowPos wristPos shoulderBone none forearmBone handBone
      = rot ∧
    Debug.updateArm T rot shoulderPos elbowPos wristPos shoulderBone upperArmBone none handBone
      = rot ∧
    (∀ u, u ≠ h.uuid →
      Debug.updateArm T rot shoulderPos elbowPos wristPos (some s) (some a) (some f) none u
        = Debug.updateArm T rot shoulderPos elbowPos wristPos (some s) (some a) (some f)
            (some h) u) := by
  refine ⟨?_, ?_, ?_, ?_⟩
  · simp [Debug.updateArm]
  · simp [Debug.updateArm]
  · simp [Debug.updateArm]
  · intro u hu
    simp [Debug.updateArm, setQuaternion, Function.update_apply, hu]

/-- The claim of C14 fails on the code.  With every landmark of the arm at the
origin and the shoulder bone of `ybot` turned by half a turn, no library that
meets `Three.Lawful` gives the upper-arm bone, when the shoulder bone is absent,
the rotation it gets when every bone is present: without the shoulder bone the
upper arm is not rotated at all. -/
theorem absent_shoulder_blocks_arm :
    ¬ ∃ T : Three ℝ, T.Lawful ∧
      T.getWorldQuaternion shoulderTurnRotations 1 = ⟨1, 0, 0, 0⟩ ∧
      Debug.updateArm T shoulderTurnRotations ⟨0, 0, 0⟩ ⟨0, 0, 0⟩ ⟨0, 0, 0⟩
          none (some ybotUpperArmL) (some ybotForearmL) (some ybotHandL) ybotUpperArmL.uuid
        = Debug.updateArm T shoulderTurnRotations ⟨0, 0, 0⟩ ⟨0, 0, 0⟩ ⟨0, 0, 0⟩
          (some ybotShoulderL) (some ybotUpperArmL) (some ybotForearmL) (some ybotHandL)
          ybotUpperArmL.uuid := by
  rintro ⟨T, hT, hw, h⟩
  have hl : Debug.updateArm T shoulderTurnRotations ⟨0, 0, 0⟩ ⟨0, 0, 0⟩ ⟨0, 0, 0⟩
      none (some ybotUpperArmL) (some ybotForearmL) (some ybotHandL) ybotUpperArmL.uuid
      = Quaternion.identity := by
    simp [Debug.updateArm, shoulderTurnRotations, ybotUpperArmL, Object3D.uuid]
  have hr : Debug.updateArm T shoulderTurnRotations ⟨0, 0, 0⟩ ⟨0, 0, 0⟩ ⟨0, 0, 0⟩
      (some ybotShoulderL) (some ybotUpperArmL) (some ybotForearmL) (some ybotHandL)
      ybotUpperArmL.uuid
      = Debug.applyBoneLookAt T shoulderTurnRotations (some ybotUpperArmL) ⟨0, 0, 0⟩
          ⟨0, 0, 0⟩ 0.22 ybotUpperArmL.uuid := by
    have h34 : ybotUpperArmL.uuid ≠ ybotHandL.uuid := by decide
    simp only [Debug.updateArm, Option.isNone_some, Bool.or_self, Bool.false_eq_true,
      if_false, setQuaternion, Function.update_apply, if_neg h34]
    exact applyBoneLookAt_other T _ (some ybotForearmL) _ _ _ _
      (fun b hb => by
        have e : ybotForearmL = b := Option.some.inj hb
        rw [← e]
        decide)
  rw [hl, hr, applyBoneLookAt_apply T _ ybotUpperArmL 1 _ _ _ rfl] at h
  have hz : Vector3.subVectors (⟨0, 0, 0⟩ : Vector3 ℝ) ⟨0, 0, 0⟩ = ⟨0, 0, 0⟩ := by
    simp [Vector3.subVectors]
  rw [hz, hT.normalize_zero] at h
  have ha : Vector3.add (⟨0, 0, 0⟩ : Vector3 ℝ) ⟨0 * -1, 0 * -1, 0⟩ = ⟨0, 0, 0⟩ := by
    simp [Vector3.add, Vector3.addVectors]
  rw [ha, hT.lookAt_self, hw] at h
  have hq : (shoulderTurnRotations ybotUpperArmL.uuid : Quaternion ℝ)
      = Quaternion.identity := rfl
  rw [hq] at h
  have h1 : (Quaternion.identity : Quaternion ℝ).lengthSq = 1 := by
    simp [Quaternion.identity, Quaternion.lengthSq]
  have h2 : ((Quaternion.identity : Quaternion ℝ).multiply
      (Quaternion.invert ⟨1, 0, 0, 0⟩)).lengthSq = 1 := by
    simp [Quaternion.identity, Quaternion.multiply, Quaternion.invert, Quaternion.lengthSq]
  rcases hT.slerp_moves _ _ 0.22 h1 h2 (by norm_num) (by norm_num) h.symm with e | e
  · simp [Quaternion.identity, Quaternion.multiply, Quaternion.invert] at e
  · simp [Quaternion.identity, Quaternion.multiply, Quaternion.invert, Quaternion.neg] at e

/-- The scene of the counterexample of C14 is possible: some library that meets
`Three.Lawful` gives the turned shoulder bone the world rotation `(1, 0, 0, 0)`. -/
theorem lawful_shoulderTurn_exists :
    ∃ T : Three ℝ, T.Lawful ∧ T.getWorldQuaternion shoulderTurnRotations 1 = ⟨1, 0, 0, 0⟩ :=
  ⟨Three.rational, rational_lawful, rfl⟩

/-- A blend of two values of `[-b, b]` stays in `[-b, b]`. -/
theorem lerp_mem (s r b : K) (hs : -b ≤ s ∧ s ≤ b) (hr : -b ≤ r ∧ r ≤ b) :
    -b ≤ lerp s r 0.18 ∧ lerp s r 0.18 ≤ b := by
  have e : lerp s r 0.18 = 0.82 * s + 0.18 * r := by
    unfold lerp
    ring
  rw [e]
  have h1 : (0 : K) ≤ 0.82 := by norm_num
  have h2 : (0 : K) ≤ 0.18 := by norm_num
  constructor
  · nlinarith [mul_le_mul_of_nonneg_left hs.1 h1, mul_le_mul_of_nonneg_left hr.1 h2]
  · nlinarith [mul_le_mul_of_nonneg_left hs.2 h1, mul_le_mul_of_nonneg_left hr.2 h2]

/-- The raw pitch lies in `[-1.3, 1.3]`. -/
theorem pitch_mem (u : Vector3 K) : -1.3 ≤ pitch u ∧ pitch u ≤ 1.3 :=
  clamp_mem _ _ _ (by norm_num)

/-- The raw yaw lies in `[-1.3, 1.3]`. -/
theorem yaw_mem (u : Vector3 K) : -1.3 ≤ yaw u ∧ yaw u ≤ 1.3 :=
  clamp_mem _ _ _ (by norm_num)

/-- One smoothing step keeps the four scalars in `[-1.3, 1.3]`. -/
theorem smooth_inRange (sm : SmoothingRef K) (v : LimbVecs K) (h : InRange sm) :
    InRange (smooth sm v) := by
  obtain ⟨h1, h2, h3, h4⟩ := h
  exact ⟨lerp_mem _ _ 1.3 h1 (yaw_mem _), lerp_mem _ _ 1.3 h2 (pitch_mem _),
    lerp_mem _ _ 1.3 h3 (yaw_mem _), lerp_mem _ _ 1.3 h4 (pitch_mem _)⟩

/-- One call of the handler keeps the four scalars in `[-1.3, 1.3]`. -/
theorem onPoseResults_inRange (T : Three K) (s : Scene K) (r : Results K)
    (h : InRange s.smoothing) : InRange (onPoseResults T s r).scene.smoothing := by
  obtain ⟨lm⟩ := r
  cases lm with
  | none =>
    have e := (onPoseResults_noPose T s).2.1
    unfold noPose at e
    rw [e]
    exact h
  | some lm =>
    rcases onPoseResults_smoothing T s lm with e | ⟨v, _, e⟩
    · rw [e]
      exact h
    · rw [e]
      exact smooth_inRange _ v h

/-- Any sequence of calls of the handler keeps the four scalars in `[-1.3, 1.3]`. -/
theorem runFrames_inRange (T : Three K) (frames : List (Results K)) (s : Scene K)
    (h : InRange s.smoothing) : InRange (runFrames T s frames).smoothing := by
  induction frames generalizing s with
  | nil => exact h
  | cons r rs ih => exact ih _ (onPoseResults_inRange T s r h)

/-- The bone updates of the handler are blends toward the quaternions of the
named targets. -/
theorem boneUpdate_targets (T : Three K) (sm : SmoothingRef K) (v : LimbVecs K)
    (q : Quaternion K) :
    boneUpdate T sm v .leftUpperArm q = T.slerp q (T.setFromEuler (leftTarget sm)) 0.25 ∧
    boneUpdate T sm v .rightUpperArm q = T.slerp q (T.setFromEuler (rightTarget sm)) 0.25 ∧
    boneUpdate T sm v .leftForearm q
      = T.slerp q (T.setFromEuler (forearmTarget T v.lUpperVec v.lForeVec)) 0.2 ∧
    boneUpdate T sm v .rightForearm q
      = T.slerp q (T.setFromEuler (forearmTarget T v.rUpperVec v.rForeVec)) 0.2 ∧
    boneUpdate T sm v .leftHand q = T.slerp q (T.setFromEuler (leftHandTarget sm)) 0.18 ∧
    boneUpdate T sm v .rightHand q = T.slerp q (T.setFromEuler (rightHandTarget sm)) 0.18 :=
  ⟨rfl, rfl, rfl, rfl, rfl, rfl⟩

/-- C15: if the four smoothed scalars lie in `[-1.3, 1.3]` before a call of
`onPoseResults` (as the initial zeros do), they lie in `[-1.3, 1.3]` after it,
whatever the result; hence after every sequence of frames the pitch and yaw of
both upper-arm targets are at most `1.3` in magnitude, those of both hand
targets at most `0.52`, and the bend of a forearm target lies in `[0, 1.6]` for
every pair of limb vectors. -/
theorem smoothing_stays_in_range (T : Three K) (s : Scene K) (r : Results K)
    (frames : List (Results K)) (upperVec foreVec : Vector3 K) (h : InRange s.smoothing) :
    InRange (SmoothingRef.initial : SmoothingRef K) ∧
    InRange (onPoseResults T s r).scene.smoothing ∧
    InRange (runFrames T s frames).smoothing ∧
    (|(leftTarget (runFrames T s frames).smoothing).x| ≤ 1.3 ∧
      |(leftTarget (runFrames T s frames).smoothing).y| ≤ 1.3 ∧
      |(rightTarget (runFrames T s frames).smoothing).x| ≤ 1.3 ∧
      |(rightTarget (runFrames T s frames).smoothing).y| ≤ 1.3) ∧
    (|(leftHandTarget (runFrames T s frames).smoothing).x| ≤ 0.52 ∧
      |(leftHandTarget (runFrames T s frames).smoothing).y| ≤ 0.52 ∧
      |(rightHandTarget (runFrames T s frames).smoothing).x| ≤ 0.52 ∧
      |(rightHandTarget (runFrames T s frames).smoothing).y| ≤ 0.52) ∧
    (0 ≤ (forearmTarget T upperVec foreVec).x ∧ (forearmTarget T upperVec foreVec).x ≤ 1.6) := by
  have hi : InRange (SmoothingRef.initial : SmoothingRef K) := by
    simp only [InRange, SmoothingRef.initial]
    norm_num
  have hr := runFrames_inRange T frames s h
  obtain ⟨⟨a1, a2⟩, ⟨b1, b2⟩, ⟨c1, c2⟩, ⟨d1, d2⟩⟩ := hr
  obtain ⟨e1, e2⟩ := clamp_mem (T.angleTo upperVec foreVec - 0.2) (0 : K) 2.0 (by norm_num)
  refine ⟨hi, onPoseResults_inRange T s r h, ⟨⟨a1, a2⟩, ⟨b1, b2⟩, ⟨c1, c2⟩, ⟨d1, d2⟩⟩,
    ⟨?_, ?_, ?_, ?_⟩, ⟨?_, ?_, ?_, ?_⟩, ?_, ?_⟩
  · exact abs_le.mpr ⟨b1, b2⟩
  · exact abs_le.mpr ⟨a1, a2⟩
  · exact abs_le.mpr ⟨d1, d2⟩
  · simp only [rightTarget]
    exact abs_le.mpr ⟨by linarith, by linarith⟩
  · simp only [leftHandTarget]
    exact abs_le.mpr ⟨by linarith, by linarith⟩
  · simp only [leftHandTarget]
    exact abs_le.mpr ⟨by linarith, by linarith⟩
  · simp only [rightHandTarget]
    exact abs_le.mpr ⟨by linarith, by linarith⟩
  · simp only [rightHandTarget]
    exact abs_le.mpr ⟨by linarith, by linarith⟩
  · simp only [forearmTarget, elbowAngle]
    linarith
  · simp only [forearmTarget, elbowAngle]
    linarith

/-- C15 on concrete frames over `ℚ`: `ybot` loaded, zero smoothing state, then a
raised arm, a frame without pose and a mirrored pose. -/
theorem smoothing_stays_in_range_witness :
    InRange (loadedScene : Scene ℚ).smoothing ∧
    InRange (runFrames (Three.rational : Three ℚ) loadedScene
      [⟨some raisedFrame⟩, noPose, ⟨some mirroredFrame⟩]).smoothing ∧
    |(rightTarget (runFrames (Three.rational : Three ℚ) loadedScene
      [⟨some raisedFrame⟩, noPose, ⟨some mirroredFrame⟩]).smoothing).y| ≤ 1.3 :=
  have h : InRange (loadedScene : Scene ℚ).smoothing := by
    simp only [InRange, loadedScene, SmoothingRef.initial]
    norm_num
  ⟨h,
    (smoothing_stays_in_range Three.rational loadedScene noPose
      [⟨some raisedFrame⟩, noPose, ⟨some mirroredFrame⟩] ⟨0, 0, 0⟩ ⟨0, 0, 0⟩ h).2.2.1,
    (smoothing_stays_in_range Three.rational loadedScene noPose
      [⟨some raisedFrame⟩, noPose, ⟨some mirroredFrame⟩] ⟨0, 0, 0⟩ ⟨0, 0, 0⟩ h).2.2.2.1.2.2.2⟩

/-- The right entry of the smoothing state after `n` blends with the same limb
vectors: each scalar follows its own iterated `lerp`. -/
theorem smooth_iterate_right (v : LimbVecs K) (sm : SmoothingRef K) (n : ℕ) :
    ((fun m => smooth m v)^[n] sm).right.x
        = (fun x => lerp x (yaw v.rUpperVec) 0.18)^[n] sm.right.x ∧
    ((fun m => smooth m v)^[n] sm).right.y
        = (fun y => lerp y (pitch v.rUpperVec) 0.18)^[n] sm.right.y := by
  induction n with
  | zero => exact ⟨rfl, rfl⟩
  | succ n ih =>
    rw [Function.iterate_succ_apply', Function.iterate_succ_apply',
      Function.iterate_succ_apply', ← ih.1, ← ih.2]
    exact ⟨rfl, rfl⟩

/-- C2: on a loaded model, a frame with landmarks makes `onPoseResults` replace
each of the four smoothed scalars by `lerp(state, raw, 0.18)`; the raw value is a
fixed point of that step, so a smoothing state equal to the raw scalars is left
as it is by the handler; when the same frame is delivered `n` times in a row,
starting from any smoothing state, each smoothed scalar `s_n` of the scene
satisfies `s_n - r = 0.82^n * (s_0 - r)` for its raw value `r`; hence for every
`ε > 0` there is an `N` such that all four are within `ε` of their raw values
after `n ≥ N` frames.  The same closed form and limit hold of the bare step
`s ↦ lerp(s, r, 0.18)` for every `r` and `s0`. -/
theorem smoothing_converges [Archimedean K] (T : Three K) (s : Scene K) (bm : BoneMap)
    (lm : List (Landmark K)) (v : LimbVecs K) (r s0 : K)
    (hb : s.boneMap = some bm) (hv : limbVecs lm = some v) :
    ((onPoseResults T s ⟨some lm⟩).scene.smoothing.left.x
        = lerp s.smoothing.left.x (rawScalars v).left.x 0.18 ∧
      (onPoseResults T s ⟨some lm⟩).scene.smoothing.left.y
        = lerp s.smoothing.left.y (rawScalars v).left.y 0.18 ∧
      (onPoseResults T s ⟨some lm⟩).scene.smoothing.right.x
        = lerp s.smoothing.right.x (rawScalars v).right.x 0.18 ∧
      (onPoseResults T s ⟨some lm⟩).scene.smoothing.right.y
        = lerp s.smoothing.right.y (rawScalars v).right.y 0.18) ∧
    (lerp r r 0.18 = r ∧
      (s.smoothing = rawScalars v →
        (onPoseResults T s ⟨some lm⟩).scene.smoothing = rawScalars v)) ∧
    (∀ n : ℕ,
      (runFrames T s (List.replicate n ⟨some lm⟩)).smoothing.left.x - (rawScalars v).left.x
        = 0.82 ^ n * (s.smoothing.left.x - (rawScalars v).left.x) ∧
      (runFrames T s (List.replicate n ⟨some lm⟩)).smoothing.left.y - (rawScalars v).left.y
        = 0.82 ^ n * (s.smoothing.left.y - (rawScalars v).left.y) ∧
      (runFrames T s (List.replicate n ⟨some lm⟩)).smoothing.right.x - (rawScalars v).right.x
        = 0.82 ^ n * (s.smoothing.right.x - (rawScalars v).right.x) ∧
      (runFrames T s (List.replicate n ⟨some lm⟩)).smoothing.right.y - (rawScalars v).right.y
        = 0.82 ^ n * (s.smoothing.right.y - (rawScalars v).right.y)) ∧
    (∀ ε : K, 0 < ε → ∃ N : ℕ, ∀ n : ℕ, N ≤ n →
      |(runFrames T s (List.replicate n ⟨some lm⟩)).smoothing.left.x - (rawScalars v).left.x|
        < ε ∧
      |(runFrames T s (List.replicate n ⟨some lm⟩)).smoothing.left.y - (rawScalars v).left.y|
        < ε ∧
      |(runFrames T s (List.replicate n ⟨some lm⟩)).smoothing.right.x - (rawScalars v).right.x|
        < ε ∧
      |(runFrames T s (List.replicate n ⟨some lm⟩)).smoothing.right.y - (rawScalars v).right.y|
        < ε) ∧
    (∀ n : ℕ, (fun x => lerp x r 0.18)^[n] s0 - r = 0.82 ^ n * (s0 - r)) ∧
    (∀ ε : K, 0 < ε → ∃ N : ℕ, ∀ n : ℕ, N ≤ n →
      |(fun x => lerp x r 0.18)^[n] s0 - r| < ε) := by
  have hfix : ∀ x : K, lerp x x 0.18 = x := by
    intro x
    unfold lerp
    ring
  have hone : (onPoseResults T s ⟨some lm⟩).scene.smoothing = smooth s.smoothing v := by
    rw [onPoseResults_pose T s bm lm v hb hv]
  have hrun : ∀ n : ℕ,
      (runFrames T s (List.replicate n ⟨some lm⟩)).smoothing.left.x
        = (fun x => lerp x (rawScalars v).left.x 0.18)^[n] s.smoothing.left.x ∧
      (runFrames T s (List.replicate n ⟨some lm⟩)).smoothing.left.y
        = (fun x => lerp x (rawScalars v).left.y 0.18)^[n] s.smoothing.left.y ∧
      (runFrames T s (List.replicate n ⟨some lm⟩)).smoothing.right.x
        = (fun x => lerp x (rawScalars v).right.x 0.18)^[n] s.smoothing.right.x ∧
      (runFrames T s (List.replicate n ⟨some lm⟩)).smoothing.right.y
        = (fun x => lerp x (rawScalars v).right.y 0.18)^[n] s.smoothing.right.y := by
    intro n
    rw [runFrames_replicate T bm lm v hv n s hb]
    exact ⟨(smooth_iterate_left v s.smoothing n).1, (smooth_iterate_left v s.smoothing n).2,
      (smooth_iterate_right v s.smoothing n).1, (smooth_iterate_right v s.smoothing n).2⟩
  refine ⟨?_, ⟨hfix r, ?_⟩, ?_, ?_, lerp_iterate_sub r s0, lerp_iterate_tendsto r s0⟩
  · rw [hone]
    exact ⟨rfl, rfl, rfl, rfl⟩
  · intro h
    rw [hone, h]
    simp only [smooth, rawScalars, hfix]
  · intro n
    obtain ⟨h1, h2, h3, h4⟩ := hrun n
    rw [h1, h2, h3, h4]
    exact ⟨lerp_iterate_sub _ _ n, lerp_iterate_sub _ _ n, lerp_iterate_sub _ _ n,
      lerp_iterate_sub _ _ n⟩
  · intro ε hε
    obtain ⟨N1, hN1⟩ := lerp_iterate_tendsto (rawScalars v).left.x s.smoothing.left.x ε hε
    obtain ⟨N2, hN2⟩ := lerp_iterate_tendsto (rawScalars v).left.y s.smoothing.left.y ε hε
    obtain ⟨N3, hN3⟩ := lerp_iterate_tendsto (rawScalars v).right.x s.smoothing.right.x ε hε
    obtain ⟨N4, hN4⟩ := lerp_iterate_tendsto (rawScalars v).right.y s.smoothing.right.y ε hε
    refine ⟨max (max N1 N2) (max N3 N4), fun n hn => ?_⟩
    obtain ⟨h1, h2, h3, h4⟩ := hrun n
    rw [h1, h2, h3, h4]
    have b1 : N1 ≤ n := le_trans (le_trans (le_max_left _ _) (le_max_left _ _)) hn
    have b2 : N2 ≤ n := le_trans (le_trans (le_max_right _ _) (le_max_left _ _)) hn
    have b3 : N3 ≤ n := le_trans (le_trans (le_max_left _ _) (le_max_right _ _)) hn
    have b4 : N4 ≤ n := le_trans (le_trans (le_max_right _ _) (le_max_right _ _)) hn
    exact ⟨hN1 n b1, hN2 n b2, hN3 n b3, hN4 n b4⟩

/-- C2 on a concrete run over `ℚ`: `ybot` loaded, zero smoothing state, the
raised-arm frame delivered again and again. -/
theorem smoothing_converges_witness :
    ∃ v, limbVecs (raisedFrame : List (Landmark ℚ)) = some v ∧
      (∀ n : ℕ,
        (runFrames (Three.rational : Three ℚ) loadedScene
            (List.replicate n ⟨some raisedFrame⟩)).smoothing.left.y - (rawScalars v).left.y
          = 0.82 ^ n * ((loadedScene : Scene ℚ).smoothing.left.y - (rawScalars v).left.y)) ∧
      (∀ ε : ℚ, 0 < ε → ∃ N : ℕ, ∀ n : ℕ, N ≤ n →
        |(runFrames (Three.rational : Three ℚ) loadedScene
            (List.replicate n ⟨some raisedFrame⟩)).smoothing.left.y - (rawScalars v).left.y|
          < ε) :=
  ⟨_, limbVecs_frame _ _ _ _ _ _,
    fun n => ((smoothing_converges Three.rational loadedScene (mapYBotBones ybot) raisedFrame _
      0 0 rfl (limbVecs_frame _ _ _ _ _ _)).2.2.1 n).2.1,
    fun ε hε =>
      let ⟨N, hN⟩ := (smoothing_converges Three.rational loadedScene (mapYBotBones ybot)
        raisedFrame _ 0 0 rfl (limbVecs_frame _ _ _ _ _ _)).2.2.2.1 ε hε
      ⟨N, fun n hn => (hN n hn).2.1⟩⟩

end Theorems

end Revive
